import Mathlib

set_option maxHeartbeats 1600000

/-!
Verification of the middle end (AST model, name resolution, type checking)
of the `new-cool-language` compiler, shallowly embedded from the TypeScript
source (`src/ast.ts`, `src/typeck/expr.ts`, the parser/builder/validator file,
and the resolver).  Mutable JS state (the local-scope stack, the inference
context, the error sink) is threaded explicitly; thrown JS errors and thrown
`CompilerError`s are modelled with `Except`.
-/

namespace NewCool

/-- Spans.  `error.ts` is not under `src/`; the spec only requires that spans
exist and can be merged (`lhs.span.merge(expr.field.span)`), so a span is a
pair of offsets and `merge` spans from the start of the first to the end of
the second. -/
structure Span where
  lo : Nat
  hi : Nat
deriving DecidableEq

def Span.merge (a b : Span) : Span := ⟨a.lo, b.hi⟩

/-- `CompilerError { message, span }` from `error.ts` (interface per spec §7). -/
structure CompilerError where
  msg : String
  span : Span
deriving DecidableEq

/-- A failure that aborts a phase: either a thrown `CompilerError` or a thrown
host-language error (a JS `Error` / `TypeError`, e.g. reading a property of
`undefined`). -/
inductive Err where
  | compiler (e : CompilerError)
  | js (msg : String)
deriving DecidableEq

/-- `ItemId`: a pair `(pkgId, itemIdx)`; `itemIdx = 0` is the package root
module (`ItemId.pkgRoot`). -/
structure ItemId where
  pkgId : Nat
  itemIdx : Nat
deriving DecidableEq

def ItemId.pkgRoot (pkg : Nat) : ItemId := ⟨pkg, 0⟩

/-- `Resolution` from `ast.ts`.  The `local` variant carries the de-Bruijn-like
distance from the top of the locals stack; `error` carries the emitted-error
token (modelled as a number). -/
inductive Resolution where
  | local_ (index : Nat)
  | item (id : ItemId)
  | builtin (name : String)
  | tyParam (index : Nat) (name : String)
  | error (err : Nat)
deriving DecidableEq

/-- The `BUILTINS` array from `ast.ts` (lines 486–505), verbatim. -/
def BUILTINS : List String :=
  ["print", "String", "Int", "I32", "Bool", "true", "false", "trap",
   "__NULL", "__i32_store", "__i64_store", "__i32_load", "__i64_load",
   "__i32_extend_to_i64_u", "___transmute", "___asm", "__locals"]

/-- `LitIntType` from the lexer: the `Int` / `I32` literal suffix. -/
inductive LitIntTy where
  | int
  | i32
deriving DecidableEq

/-- `Literal` from `ast.ts`. -/
inductive Literal where
  | str (value : String) (span : Span)
  | int (value : Nat) (ty : LitIntTy)
deriving DecidableEq

/-- The `BinaryKind` union of 13 operator strings
(`"+" | "-" | "*" | "/" | "%" | "&" | "|" | "<" | ">" | "==" | "<=" | ">=" | "!="`). -/
inductive BinaryKind where
  | add
  | sub
  | mul
  | div
  | rem
  | and
  | or
  | lt
  | gt
  | eq
  | le
  | ge
  | ne
deriving DecidableEq

def BinaryKind.asStr : BinaryKind → String
  | .add => "+"
  | .sub => "-"
  | .mul => "*"
  | .div => "/"
  | .rem => "%"
  | .and => "&"
  | .or => "|"
  | .lt => "<"
  | .gt => ">"
  | .eq => "=="
  | .le => "<="
  | .ge => ">="
  | .ne => "!="

def COMPARISON_KINDS : List BinaryKind := [.gt, .lt, .eq, .le, .ge, .ne]

def EQUALITY_KINDS : List BinaryKind := [.eq, .ne]

def LOGICAL_KINDS : List BinaryKind := [.and, .or]

def ARITH_TERM_KINDS : List BinaryKind := [.add, .sub]

def ARITH_FACTOR_KINDS : List BinaryKind := [.mul, .div, .rem]

/-- `BINARY_KIND_PREC_CLASS` / `binaryExprPrecedenceClass` from `ast.ts`
(total over the union, so `unreachable` cannot fire). -/
def binaryExprPrecedenceClass : BinaryKind → Nat
  | .add => 0
  | .sub => 0
  | .mul => 0
  | .div => 0
  | .rem => 0
  | .and => 1
  | .or => 2
  | .lt => 3
  | .gt => 4
  | .eq => 5
  | .le => 6
  | .ge => 7
  | .ne => 8

/-- The `UnaryKind` union (`"!" | "-"`). -/
inductive UnaryKind where
  | not
  | neg
deriving DecidableEq

def UnaryKind.asStr : UnaryKind → String
  | .not => "!"
  | .neg => "-"

def UNARY_KINDS : List UnaryKind := [.not, .neg]

/-- Semantic types (`Ty` from `types.ts`, whose shape is fixed by the spec §3
"Resolved type" and by every `.kind` test in `typeck/expr.ts`): primitives,
`fn`, nominal `struct` (with `fields_no_subst`), `tuple`, `rawptr`, unification
`var`, type `param`, and the `error` sentinel. -/
inductive Ty where
  | string
  | int
  | i32
  | bool
  | never
  | tuple (elems : List Ty)
  | fn (params : List Ty) (returnTy : Ty)
  | struct (id : ItemId) (fields_no_subst : List (String × Ty))
  | rawptr (inner : Ty)
  | var (id : Nat)
  | param (index : Nat)
  | error

def TY_STRING : Ty := .string
def TY_INT : Ty := .int
def TY_I32 : Ty := .i32
def TY_BOOL : Ty := .bool

/-- The unit type is the empty tuple (`()` is "the unit type, an empty tuple"
per the parser; spec §6). -/
def TY_UNIT : Ty := .tuple []

def TY_NEVER : Ty := .never

/-- `mkTyFn` from `typeck/base.ts`. -/
def mkTyFn (params : List Ty) (returnTy : Ty) : Ty := .fn params returnTy

/-- `lhsTy.kind === "int"` etc.: discriminators on the `kind` tag. -/
def Ty.isInt : Ty → Bool
  | .int => true
  | _ => false

def Ty.isI32 : Ty → Bool
  | .i32 => true
  | _ => false

def Ty.isBool : Ty → Bool
  | .bool => true
  | _ => false

def Ty.isString : Ty → Bool
  | .string => true
  | _ => false

def Ty.isRawptr : Ty → Bool
  | .rawptr _ => true
  | _ => false

/-- The pointee of a `rawptr`; only read under an `isRawptr` guard (mirrors
`lhsTy.inner` after a `lhsTy.kind === "rawptr"` test). -/
def Ty.inner! : Ty → Ty
  | .rawptr t => t
  | _ => .error

-- ## Name resolution (the resolver file)

/-- The kind tag of an item, as inspected by `module.kind === "mod" ||
module.kind === "extern"` and by the assignment l-value check. -/
inductive ItemKindTag where
  | function
  | typeDef
  | importDef
  | mod
  | ext
  | global
  | use
  | error
deriving DecidableEq

structure ItemSummary where
  kind : ItemKindTag
  name : String
deriving DecidableEq

/-- The resolver's ambient context for one module: the module's `name → ItemId`
map, the package names in scope (`cx.ast` plus `gcx`'s finalized packages),
`gcx.findItem`, and the member lookup performed by `resolveModItem` (its
per-item-id cache and the on-demand dependency loading are pure functions of
this fixed context, so they are modelled by `modLookup` directly). -/
structure RCtx where
  items : List (String × ItemId)
  pkgs : List (String × Nat)
  findItem : ItemId → ItemSummary
  modLookup : ItemId → String → Option ItemId

/-- `LocalInfo` (pre-typeck: name and span). -/
structure LocalInfo where
  name : String
  span : Span
deriving DecidableEq

/-- The resolver's mutable state: the `scopes` stack of local names (JS array
order: index 0 is the bottom, push appends at the end) and the `blockLocals`
stack of per-block local-info lists (last entry = innermost block). -/
structure RState where
  scopes : List String
  blockLocals : List (List LocalInfo)
deriving DecidableEq

/-- Append `x` to the last entry of `bl`
(`blockLocals[blockLocals.length - 1].push(local)`); `none` when `bl` is
empty (in JS this is a `TypeError` on `undefined`). -/
def pushToLast (bl : List (List LocalInfo)) (x : LocalInfo) :
    Option (List (List LocalInfo)) :=
  match bl.getLast? with
  | none => none
  | some last => some (bl.dropLast ++ [last ++ [x]])

/-- The local-scan loop of `resolveIdent`:
`for (let i = lastIdx; i >= 0; i--) if (scopes[i] === name) return lastIdx - i`.
Scanning from the top and returning `lastIdx − i` is exactly the index of the
first match in the reversed array. -/
def resolveLocalIdx (scopes : List String) (name : String) : Option Nat :=
  scopes.reverse.findIdx? (fun c => c = name)

/-- `resolveIdent` from the resolver: locals first, then the module's items,
then package names in scope, then builtins; otherwise a **thrown**
`CompilerError` (`throw new CompilerError("cannot find " + name, span)`). -/
def resolveIdentRes (cx : RCtx) (s : RState) (name : String) (span : Span) :
    Except Err Resolution :=
  match resolveLocalIdx s.scopes name with
  | some index => .ok (.local_ index)
  | none =>
    match cx.items.lookup name with
    | some id => .ok (.item id)
    | none =>
      match cx.pkgs.lookup name with
      | some pkg => .ok (.item (ItemId.pkgRoot pkg))
      | none =>
        if BUILTINS.contains name then .ok (.builtin name)
        else .error (.compiler ⟨"cannot find " ++ name, span⟩)

/-- `a.b` field names are `string | number` in the source. -/
inductive FieldVal where
  | str (s : String)
  | num (n : Nat)
deriving DecidableEq

-- ### AST types (phase-indexed): Built phase

inductive BType where
  | identTy (name : String) (vspan : Span) (genericArgs : List BType) (span : Span)
  | tuple (elems : List BType) (span : Span)
  | rawptr (inner : BType) (span : Span)
  | never (span : Span)
  | error (err : Nat) (span : Span)

inductive RType where
  | identTy (name : String) (vspan : Span) (res : Resolution)
      (genericArgs : List RType) (span : Span)
  | tuple (elems : List RType) (span : Span)
  | rawptr (inner : RType) (span : Span)
  | never (span : Span)
  | error (err : Nat) (span : Span)

-- ### Expressions, Built phase (`Expr<Built>`).
-- `path` structurally carries a `Resolution` in every phase (`ExprPath` is not
-- phase-parameterized in `ast.ts`), and `fieldAccess`'s `field.fieldIdx` slot
-- exists in every phase.  `loop` carries its `loopId` in every phase (the
-- parser writes a dummy `0`).  `asm` payloads are opaque here.

inductive BExpr where
  | empty (span : Span)
  | elet (name : String) (nspan : Span) (ty : Option BType) (rhs : BExpr) (span : Span)
  | assign (lhs rhs : BExpr) (span : Span)
  | block (exprs : List BExpr) (span : Span)
  | lit (value : Literal) (span : Span)
  | ident (name : String) (vspan : Span) (span : Span)
  | path (segments : List String) (res : Resolution) (vspan : Span) (span : Span)
  | binary (k : BinaryKind) (lhs rhs : BExpr) (span : Span)
  | unary (k : UnaryKind) (rhs : BExpr) (span : Span)
  | call (lhs : BExpr) (args : List BExpr) (span : Span)
  | fieldAccess (lhs : BExpr) (fval : FieldVal) (fspan : Span)
      (fieldIdx : Option Nat) (span : Span)
  | ifE (cond thenE : BExpr) (elseE : Option BExpr) (span : Span)
  | loop (body : BExpr) (loopId : Nat) (span : Span)
  | brk (span : Span)
  | structLit (name : String) (nspan : Span)
      (fields : List (String × Span × BExpr)) (span : Span)
  | tupleLit (fields : List BExpr) (span : Span)
  | asm (span : Span)
  | error (err : Nat) (span : Span)

-- ### Expressions, Resolved phase (`Expr<Resolved>`): idents carry a
-- `Resolution`, `let` carries its `LocalInfo`, blocks carry their `locals`.

inductive RExpr where
  | empty (span : Span)
  | elet (name : String) (nspan : Span) (ty : Option RType) (rhs : RExpr)
      (localInfo : LocalInfo) (span : Span)
  | assign (lhs rhs : RExpr) (span : Span)
  | block (exprs : List RExpr) (locals : List LocalInfo) (span : Span)
  | lit (value : Literal) (span : Span)
  | ident (name : String) (vspan : Span) (res : Resolution) (span : Span)
  | path (segments : List String) (res : Resolution) (vspan : Span) (span : Span)
  | binary (k : BinaryKind) (lhs rhs : RExpr) (span : Span)
  | unary (k : UnaryKind) (rhs : RExpr) (span : Span)
  | call (lhs : RExpr) (args : List RExpr) (span : Span)
  | fieldAccess (lhs : RExpr) (fval : FieldVal) (fspan : Span)
      (fieldIdx : Option Nat) (span : Span)
  | ifE (cond thenE : RExpr) (elseE : Option RExpr) (span : Span)
  | loop (body : RExpr) (loopId : Nat) (span : Span)
  | brk (span : Span)
  | structLit (name : String) (nspan : Span) (nres : Resolution)
      (fields : List (String × Span × RExpr)) (span : Span)
  | tupleLit (fields : List RExpr) (span : Span)
  | asm (span : Span)
  | error (err : Nat) (span : Span)

def RExpr.span : RExpr → Span
  | .empty sp => sp
  | .elet _ _ _ _ _ sp => sp
  | .assign _ _ sp => sp
  | .block _ _ sp => sp
  | .lit _ sp => sp
  | .ident _ _ _ sp => sp
  | .path _ _ _ sp => sp
  | .binary _ _ _ sp => sp
  | .unary _ _ sp => sp
  | .call _ _ sp => sp
  | .fieldAccess _ _ _ _ sp => sp
  | .ifE _ _ _ sp => sp
  | .loop _ _ sp => sp
  | .brk sp => sp
  | .structLit _ _ _ _ sp => sp
  | .tupleLit _ sp => sp
  | .asm sp => sp
  | .error _ sp => sp

-- ### The resolver's type folder (`superFoldType` with the resolving
-- `ident` callback; types never mutate the scope state).

mutual

def resolveType (cx : RCtx) (s : RState) : BType → Except Err RType
  | .identTy name vspan gens span =>
    match resolveTypes cx s gens with
    | .error e => .error e
    | .ok gens' =>
      match resolveIdentRes cx s name vspan with
      | .error e => .error e
      | .ok res => .ok (.identTy name vspan res gens' span)
  | .tuple elems span =>
    match resolveTypes cx s elems with
    | .error e => .error e
    | .ok elems' => .ok (.tuple elems' span)
  | .rawptr inner span =>
    match resolveType cx s inner with
    | .error e => .error e
    | .ok inner' => .ok (.rawptr inner' span)
  | .never span => .ok (.never span)
  | .error err span => .ok (.error err span)

def resolveTypes (cx : RCtx) (s : RState) : List BType → Except Err (List RType)
  | [] => .ok []
  | t :: rest =>
    match resolveType cx s t with
    | .error e => .error e
    | .ok t' =>
      match resolveTypes cx s rest with
      | .error e => .error e
      | .ok rest' => .ok (t' :: rest')

end

/-- `expr.type && this.type(expr.type)` for the optional `let` ascription. -/
def resolveOptType (cx : RCtx) (s : RState) : Option BType → Except Err (Option RType)
  | none => .ok none
  | some t =>
    match resolveType cx s t with
    | .error e => .error e
    | .ok t' => .ok (some t')

/-- The collapse guard of the resolver's `fieldAccess` case: if the folded lhs
is an `ident`, its resolution is recomputed with `resolveIdent`; a `path`
carries its resolution; anything else is not a collapse candidate.  Returns
the resolution together with the lhs segments. -/
def fieldAccessGuard (cx : RCtx) (s : RState) :
    RExpr → Except Err (Option (Resolution × List String))
  | .ident name vspan _ _ =>
    match resolveIdentRes cx s name vspan with
    | .error e => .error e
    | .ok res => .ok (some (res, [name]))
  | .path segs res _ _ => .ok (some (res, segs))
  | _ => .ok none

-- ### The resolver's expression folder (`resolver.expr`): special cases for
-- `block`, `let` and `fieldAccess`; every other kind goes through
-- `superFoldExpr(expr, this)`, inlined here with the state threaded.

mutual

def resolveExpr (cx : RCtx) (s : RState) : BExpr → Except Err (RExpr × RState)
  | .empty sp => .ok (.empty sp, s)
  | .elet name nspan ty rhs sp =>
    -- `const rhs = this.expr(expr.rhs); const type = expr.type && this.type(...)`
    -- then push the name and append the local record.
    match resolveExpr cx s rhs with
    | .error e => .error e
    | .ok (rhs', s₁) =>
      match resolveOptType cx s₁ ty with
      | .error e => .error e
      | .ok ty' =>
        let localInfo : LocalInfo := ⟨name, nspan⟩
        match pushToLast s₁.blockLocals localInfo with
        | none => .error (.js "TypeError: cannot read push of undefined")
        | some bl =>
          .ok (.elet name nspan ty' rhs' localInfo sp,
               ⟨s₁.scopes ++ [name], bl⟩)
  | .assign lhs rhs sp =>
    match resolveExpr cx s lhs with
    | .error e => .error e
    | .ok (lhs', s₁) =>
      match resolveExpr cx s₁ rhs with
      | .error e => .error e
      | .ok (rhs', s₂) => .ok (.assign lhs' rhs' sp, s₂)
  | .block exprs sp =>
    -- snapshot the stack depth, push a fresh `blockLocals` entry, fold the
    -- sub-expressions, truncate the stack, pop the locals.
    let prevScopeLength := s.scopes.length
    let s₀ : RState := ⟨s.scopes, s.blockLocals ++ [[]]⟩
    match resolveExprs cx s₀ exprs with
    | .error e => .error e
    | .ok (exprs', s₁) =>
      let locals := (s₁.blockLocals.getLast?).getD []
      .ok (.block exprs' locals sp,
           ⟨s₁.scopes.take prevScopeLength, s₁.blockLocals.dropLast⟩)
  | .lit v sp => .ok (.lit v sp, s)
  | .ident name vspan sp =>
    match resolveIdentRes cx s name vspan with
    | .error e => .error e
    | .ok res => .ok (.ident name vspan res sp, s)
  | .path segs res vspan sp => .ok (.path segs res vspan sp, s)
  | .binary k lhs rhs sp =>
    match resolveExpr cx s lhs with
    | .error e => .error e
    | .ok (lhs', s₁) =>
      match resolveExpr cx s₁ rhs with
      | .error e => .error e
      | .ok (rhs', s₂) => .ok (.binary k lhs' rhs' sp, s₂)
  | .unary k rhs sp =>
    match resolveExpr cx s rhs with
    | .error e => .error e
    | .ok (rhs', s₁) => .ok (.unary k rhs' sp, s₁)
  | .call lhs args sp =>
    match resolveExpr cx s lhs with
    | .error e => .error e
    | .ok (lhs', s₁) =>
      match resolveExprs cx s₁ args with
      | .error e => .error e
      | .ok (args', s₂) => .ok (.call lhs' args' sp, s₂)
  | .fieldAccess lhs fval fspan fieldIdx sp =>
    -- module-path collapsing: fold the lhs first; if it is an `ident`/`path`
    -- resolving to a `mod`/`extern` item, rewrite into a `path`; otherwise
    -- fall through to `superFoldExpr(expr, this)` (which folds `expr.lhs`
    -- again, from the state left by the first fold).
    match resolveExpr cx s lhs with
    | .error e => .error e
    | .ok (lhs₁, s₁) =>
      match fieldAccessGuard cx s₁ lhs₁ with
      | .error e => .error e
      | .ok none =>
        match resolveExpr cx s₁ lhs with
        | .error e => .error e
        | .ok (lhs₂, s₂) => .ok (.fieldAccess lhs₂ fval fspan fieldIdx sp, s₂)
      | .ok (some (res, segments)) =>
        match res with
        | .item id =>
          let module := cx.findItem id
          if module.kind = .mod ∨ module.kind = .ext then
            match fval with
            | .num _ =>
              .error (.compiler
                ⟨"module contents cannot be indexed with a number", fspan⟩)
            | .str fname =>
              match cx.modLookup id fname with
              | none =>
                .error (.compiler
                  ⟨"module " ++ module.name ++ " has no item " ++ fname, fspan⟩)
              | some target =>
                .ok (.path (segments ++ [fname]) (.item target)
                      (Span.merge lhs₁.span fspan) (Span.merge lhs₁.span fspan),
                     s₁)
          else
            match resolveExpr cx s₁ lhs with
            | .error e => .error e
            | .ok (lhs₂, s₂) => .ok (.fieldAccess lhs₂ fval fspan fieldIdx sp, s₂)
        | _ =>
          match resolveExpr cx s₁ lhs with
          | .error e => .error e
          | .ok (lhs₂, s₂) => .ok (.fieldAccess lhs₂ fval fspan fieldIdx sp, s₂)
  | .ifE cond thenE elseE sp =>
    match resolveExpr cx s cond with
    | .error e => .error e
    | .ok (cond', s₁) =>
      match resolveExpr cx s₁ thenE with
      | .error e => .error e
      | .ok (then', s₂) =>
        match resolveOptExpr cx s₂ elseE with
        | .error er => .error er
        | .ok (else', s₃) => .ok (.ifE cond' then' else' sp, s₃)
  | .loop body loopId sp =>
    match resolveExpr cx s body with
    | .error e => .error e
    | .ok (body', s₁) => .ok (.loop body' loopId sp, s₁)
  | .brk sp => .ok (.brk sp, s)
  | .structLit name nspan fields sp =>
    -- `superFoldExpr`: `name: folder.ident(expr.name)` first, then the fields
    -- are rebuilt from `{name, expr}` only (any `fieldIdx` is dropped).
    match resolveIdentRes cx s name nspan with
    | .error e => .error e
    | .ok nres =>
      match resolveFields cx s fields with
      | .error e => .error e
      | .ok (fields', s₁) => .ok (.structLit name nspan nres fields' sp, s₁)
  | .tupleLit fields sp =>
    match resolveExprs cx s fields with
    | .error e => .error e
    | .ok (fields', s₁) => .ok (.tupleLit fields' sp, s₁)
  | .asm sp => .ok (.asm sp, s)
  | .error err sp => .ok (.error err sp, s)

def resolveOptExpr (cx : RCtx) (s : RState) :
    Option BExpr → Except Err (Option RExpr × RState)
  | none => .ok (none, s)
  | some e =>
    match resolveExpr cx s e with
    | .error er => .error er
    | .ok (e', s₁) => .ok (some e', s₁)

def resolveExprs (cx : RCtx) (s : RState) :
    List BExpr → Except Err (List RExpr × RState)
  | [] => .ok ([], s)
  | e :: rest =>
    match resolveExpr cx s e with
    | .error er => .error er
    | .ok (e', s₁) =>
      match resolveExprs cx s₁ rest with
      | .error er => .error er
      | .ok (rest', s₂) => .ok (e' :: rest', s₂)

def resolveFields (cx : RCtx) (s : RState) :
    List (String × Span × BExpr) → Except Err (List (String × Span × RExpr) × RState)
  | [] => .ok ([], s)
  | (n, nsp, e) :: rest =>
    match resolveExpr cx s e with
    | .error er => .error er
    | .ok (e', s₁) =>
      match resolveFields cx s₁ rest with
      | .error er => .error er
      | .ok (rest', s₂) => .ok ((n, nsp, e') :: rest', s₂)

end

-- ## Type checking (`typeck/expr.ts`)

/-- Typecked expressions (`Expr<Typecked>`): every node carries a `ty`;
`break` additionally carries its `target` loop id, and struct-literal fields
their elaborated `fieldIdx`.  (`asm` never reaches the checker's `switch`,
which has no case for it.) -/
inductive TExpr where
  | empty (span : Span) (ty : Ty)
  | elet (name : String) (nspan : Span) (tyAsc : Option RType) (rhs : TExpr)
      (span : Span) (ty : Ty)
  | assign (lhs rhs : TExpr) (span : Span) (ty : Ty)
  | block (exprs : List TExpr) (locals : List LocalInfo) (span : Span) (ty : Ty)
  | lit (value : Literal) (span : Span) (ty : Ty)
  | ident (name : String) (vspan : Span) (res : Resolution) (span : Span) (ty : Ty)
  | path (segments : List String) (res : Resolution) (vspan : Span)
      (span : Span) (ty : Ty)
  | binary (k : BinaryKind) (lhs rhs : TExpr) (span : Span) (ty : Ty)
  | unary (k : UnaryKind) (rhs : TExpr) (span : Span) (ty : Ty)
  | call (lhs : TExpr) (args : List TExpr) (span : Span) (ty : Ty)
  | fieldAccess (lhs : TExpr) (fval : FieldVal) (fspan : Span)
      (fieldIdx : Option Nat) (span : Span) (ty : Ty)
  | ifE (cond thenE : TExpr) (elseE : Option TExpr) (span : Span) (ty : Ty)
  | loop (body : TExpr) (loopId : Nat) (span : Span) (ty : Ty)
  | brk (target : Option Nat) (span : Span) (ty : Ty)
  | structLit (name : String) (nspan : Span) (nres : Resolution)
      (fields : List (String × Span × TExpr × Option Nat)) (span : Span) (ty : Ty)
  | tupleLit (fields : List TExpr) (span : Span) (ty : Ty)
  | error (err : Nat) (span : Span) (ty : Ty)

def TExpr.ty : TExpr → Ty
  | .empty _ t => t
  | .elet _ _ _ _ _ t => t
  | .assign _ _ _ t => t
  | .block _ _ _ t => t
  | .lit _ _ t => t
  | .ident _ _ _ _ t => t
  | .path _ _ _ _ t => t
  | .binary _ _ _ _ t => t
  | .unary _ _ _ t => t
  | .call _ _ _ t => t
  | .fieldAccess _ _ _ _ _ t => t
  | .ifE _ _ _ _ t => t
  | .loop _ _ _ t => t
  | .brk _ _ t => t
  | .structLit _ _ _ _ _ t => t
  | .tupleLit _ _ t => t
  | .error _ _ t => t

def TExpr.span : TExpr → Span
  | .empty sp _ => sp
  | .elet _ _ _ _ sp _ => sp
  | .assign _ _ sp _ => sp
  | .block _ _ sp _ => sp
  | .lit _ sp _ => sp
  | .ident _ _ _ sp _ => sp
  | .path _ _ _ sp _ => sp
  | .binary _ _ _ sp _ => sp
  | .unary _ _ sp _ => sp
  | .call _ _ sp _ => sp
  | .fieldAccess _ _ _ _ sp _ => sp
  | .ifE _ _ _ sp _ => sp
  | .loop _ _ sp _ => sp
  | .brk _ sp _ => sp
  | .structLit _ _ _ _ sp _ => sp
  | .tupleLit _ sp _ => sp
  | .error _ sp _ => sp

/-- `node.ty = ...` in-place updates (e.g. `lhs.ty = infcx.resolveIfPossible(lhs.ty)`). -/
def TExpr.withTy (e : TExpr) (t : Ty) : TExpr :=
  match e with
  | .empty sp _ => .empty sp t
  | .elet n nsp a r sp _ => .elet n nsp a r sp t
  | .assign l r sp _ => .assign l r sp t
  | .block es ls sp _ => .block es ls sp t
  | .lit v sp _ => .lit v sp t
  | .ident n vs r sp _ => .ident n vs r sp t
  | .path s r vs sp _ => .path s r vs sp t
  | .binary k l r sp _ => .binary k l r sp t
  | .unary k r sp _ => .unary k r sp t
  | .call l a sp _ => .call l a sp t
  | .fieldAccess l f fs fi sp _ => .fieldAccess l f fs fi sp t
  | .ifE c th e sp _ => .ifE c th e sp t
  | .loop b li sp _ => .loop b li sp t
  | .brk tg sp _ => .brk tg sp t
  | .structLit n ns nr fs sp _ => .structLit n ns nr fs sp t
  | .tupleLit fs sp _ => .tupleLit fs sp t
  | .error er sp _ => .error er sp t

/-- The loop-state record of the body checker
(`type LoopState = { hasBreak: boolean; loopId: LoopId }`). -/
structure LoopState where
  hasBreak : Bool
  loopId : Nat
deriving DecidableEq

/-- The body checker's context: `typeOfItem` from `typeck/item.ts` (not under
`src/`; modelled as an oracle giving each item's memoized lowered type, per
spec §4.4 "Signature lowering") and `gcx.findItem` for the l-value check. -/
structure ChkCtx where
  typeOfItem : ItemId → Ty
  findItem : ItemId → ItemSummary

/-- The body checker's mutable state: the inference context's fresh-variable
counter and substitution (`infer.ts` is not under `src/`; modelled from the
spec §4.4 "Inference context"), the error sink, and the checker's `localTys`
and `loopState` stacks (JS array order: index 0 bottom, push at the end). -/
structure ChkSt where
  nextVar : Nat
  subst : List (Nat × Ty)
  diags : List CompilerError
  localTys : List Ty
  loopState : List LoopState

/-- `emitError`: submit a diagnostic to the error sink and keep going. -/
def emitDiag (st : ChkSt) (e : CompilerError) : ChkSt :=
  { st with diags := st.diags ++ [e] }

/-- `tyError`: emit a diagnostic and produce the error type sentinel. -/
def tyErrorSt (st : ChkSt) (e : CompilerError) : Ty × ChkSt :=
  (.error, emitDiag st e)

/-- Modelled from the spec: `newVar() → var`, a "fresh monotonically increasing
identifier" (`infer.ts` is not under `src/`). -/
def newVar (st : ChkSt) : Ty × ChkSt :=
  (.var st.nextVar, { st with nextVar := st.nextVar + 1 })

/-- Modelled from the spec: `resolveIfPossible(ty)` is a "shallow chase — if
`ty` is a variable bound in `subst`, replace and recurse; otherwise return
`ty`".  The chase is bounded by the number of bindings, which covers every
chain a well-formed substitution can produce. -/
def chaseVar (subst : List (Nat × Ty)) : Nat → Ty → Ty
  | 0, t => t
  | fuel + 1, t =>
    match t with
    | .var v =>
      match subst.lookup v with
      | some t' => chaseVar subst fuel t'
      | none => t
    | _ => t

def resolveIfPossible (st : ChkSt) (t : Ty) : Ty :=
  chaseVar st.subst (st.subst.length + 1) t

-- Occurs check: does variable `v` occur in `t`?
mutual

def occursIn (v : Nat) : Ty → Bool
  | .var w => v = w
  | .tuple elems => occursInList v elems
  | .fn params ret => occursInList v params || occursIn v ret
  | .struct _ fields => occursInFields v fields
  | .rawptr inner => occursIn v inner
  | _ => false

def occursInList (v : Nat) : List Ty → Bool
  | [] => false
  | t :: rest => occursIn v t || occursInList v rest

def occursInFields (v : Nat) : List (String × Ty) → Bool
  | [] => false
  | (_, t) :: rest => occursIn v t || occursInFields v rest

end

-- Modelled from the spec: `assign(expected, actual, span)` unifies.  Rules
-- (spec §4.4): error types succeed silently; resolve both sides; bind an
-- unoccupied var (occurs check); same primitives succeed; `never` unifies
-- one-sidedly (a diverging actual fits any expectation); tuples/rawptr/fn
-- component-wise, structs by item identity; otherwise a mismatch diagnostic at
-- `span`.  The recursion is bounded by an explicit depth that the finite types
-- arising in this development never reach.
mutual

def assignF (fuel : Nat) (expected actual : Ty) (span : Span) (st : ChkSt) : ChkSt :=
  match fuel with
  | 0 => emitDiag st ⟨"unification depth exceeded", span⟩
  | fuel + 1 =>
    let exp := resolveIfPossible st expected
    let act := resolveIfPossible st actual
    match exp, act with
    | .error, _ => st
    | _, .error => st
    | .var v, a =>
      if occursIn v a then emitDiag st ⟨"occurs check failed", span⟩
      else { st with subst := st.subst ++ [(v, a)] }
    | e, .var v =>
      if occursIn v e then emitDiag st ⟨"occurs check failed", span⟩
      else { st with subst := st.subst ++ [(v, e)] }
    | .string, .string => st
    | .int, .int => st
    | .i32, .i32 => st
    | .bool, .bool => st
    | .never, .never => st
    | _, .never => st
    | .tuple es, .tuple as_ =>
      if es.length = as_.length then assignListF fuel es as_ span st
      else emitDiag st ⟨"mismatched tuple lengths", span⟩
    | .rawptr a, .rawptr b => assignF fuel a b span st
    | .fn ps r, .fn qs r' =>
      if ps.length = qs.length then
        assignF fuel r r' span (assignListF fuel ps qs span st)
      else emitDiag st ⟨"mismatched fn arity", span⟩
    | .struct i _, .struct j _ =>
      if i = j then st else emitDiag st ⟨"mismatched structs", span⟩
    | _, _ => emitDiag st ⟨"mismatched types", span⟩

def assignListF (fuel : Nat) (es as_ : List Ty) (span : Span) (st : ChkSt) : ChkSt :=
  match es, as_ with
  | e :: erest, a :: arest => assignListF fuel erest arest span (assignF fuel e a span st)
  | _, _ => st

end

def assignTy (expected actual : Ty) (span : Span) (st : ChkSt) : ChkSt :=
  assignF 64 expected actual span st

/-- `printTy` (from `printer.ts`, interface only): renders the kind tag; used
only to build diagnostic message strings. -/
def printTy : Ty → String
  | .string => "string"
  | .int => "int"
  | .i32 => "i32"
  | .bool => "bool"
  | .never => "!"
  | .tuple _ => "tuple"
  | .fn _ _ => "fn"
  | .struct _ _ => "struct"
  | .rawptr _ => "rawptr"
  | .var _ => "var"
  | .param _ => "param"
  | .error => "error"

def FieldVal.asStr : FieldVal → String
  | .str s => s
  | .num n => toString n

/-- `typeOfBuiltinValue` (`typeck/expr.ts` lines 78–114), including its
`__memory_size` / `__memory_grow` cases. -/
def typeOfBuiltinValue (name : String) (span : Span) (st : ChkSt) : Ty × ChkSt :=
  match name with
  | "false" => (TY_BOOL, st)
  | "true" => (TY_BOOL, st)
  | "print" => (mkTyFn [TY_STRING] TY_UNIT, st)
  | "trap" => (mkTyFn [] TY_NEVER, st)
  | "__NULL" =>
    let (v, st') := newVar st
    (.rawptr v, st')
  | "__i32_store" => (mkTyFn [TY_I32, TY_I32] TY_UNIT, st)
  | "__i64_store" => (mkTyFn [TY_I32, TY_INT] TY_UNIT, st)
  | "__i32_load" => (mkTyFn [TY_I32] TY_I32, st)
  | "__i64_load" => (mkTyFn [TY_I32] TY_INT, st)
  | "__memory_size" => (mkTyFn [] TY_I32, st)
  | "__memory_grow" => (mkTyFn [TY_I32] TY_I32, st)
  | "__i32_extend_to_i64_u" => (mkTyFn [TY_I32] TY_INT, st)
  | _ => tyErrorSt st ⟨"`" ++ name ++ "` cannot be used as a value", span⟩

/-- The local lookup of `typeOfValue`:
`const idx = fcx.localTys.length - 1 - res.index; return fcx.localTys[idx]`. -/
def typeOfLocal (localTys : List Ty) (index : Nat) : Option Ty :=
  localTys[localTys.length - 1 - index]?

/-- `typeOfValue` (`typeck/expr.ts` lines 57–76).  An out-of-range local index
yields JS `undefined` in the source; it is mapped to the error type here and
never arises for well-formed resolutions. -/
def typeOfValue (cx : ChkCtx) (res : Resolution) (span : Span) (st : ChkSt) :
    Ty × ChkSt :=
  match res with
  | .local_ index => ((typeOfLocal st.localTys index).getD .error, st)
  | .item id => (cx.typeOfItem id, st)
  | .builtin name => typeOfBuiltinValue name span st
  | .tyParam _ _ => tyErrorSt st ⟨"type parameter cannot be used as value", span⟩
  | .error _ => (.error, st)

-- Modelled from the spec: `lowerAstTy` (`typeck/item.ts` is not under
-- `src/`) maps AST types to semantic types (spec §4.4): an `ident` resolves its
-- `value` — built-in type names map to their primitives, items to their lowered
-- type, type parameters to `param`; tuples map element-wise (the empty tuple is
-- the unit type); raw pointers recurse; `never` and `error` map directly.
mutual

def lowerAstTy (cx : ChkCtx) (st : ChkSt) : RType → Ty × ChkSt
  | .identTy _ vspan res _ _ =>
    match res with
    | .item id => (cx.typeOfItem id, st)
    | .tyParam index _ => (.param index, st)
    | .builtin b =>
      match b with
      | "String" => (TY_STRING, st)
      | "Int" => (TY_INT, st)
      | "I32" => (TY_I32, st)
      | "Bool" => (TY_BOOL, st)
      | _ => tyErrorSt st ⟨"`" ++ b ++ "` is not a type", vspan⟩
    | .error _ => (.error, st)
    | .local_ _ => tyErrorSt st ⟨"local is not a type", vspan⟩
  | .tuple elems _ =>
    let (tys, st') := lowerAstTys cx st elems
    (.tuple tys, st')
  | .rawptr inner _ =>
    let (t, st') := lowerAstTy cx st inner
    (.rawptr t, st')
  | .never _ => (TY_NEVER, st)
  | .error _ _ => (.error, st)

def lowerAstTys (cx : ChkCtx) (st : ChkSt) : List RType → List Ty × ChkSt
  | [] => ([], st)
  | t :: rest =>
    let (t', st₁) := lowerAstTy cx st t
    let (rest', st₂) := lowerAstTys cx st₁ rest
    (t' :: rest', st₂)

end

/-- The tail of `checkBinary` (`typeck/expr.ts` lines 562–609), after both
operands have been checked and their types resolved: the comparison section
(whose failures fall through), then the `int/int` and `i32/i32` rules (which
apply to every operator kind), then the `&`/`|` `bool/bool` rule, then the
"invalid types for binary operation" diagnostic. -/
def binaryOpTy (k : BinaryKind) (lt rt : Ty) (span : Span) (st : ChkSt) : Ty × ChkSt :=
  let arith : Ty × ChkSt :=
    if lt.isInt && rt.isInt then (TY_INT, st)
    else if lt.isI32 && rt.isI32 then (TY_I32, st)
    else if LOGICAL_KINDS.contains k && lt.isBool && rt.isBool then (TY_BOOL, st)
    else
      tyErrorSt st
        ⟨"invalid types for binary operation: " ++ printTy lt ++ " " ++
          k.asStr ++ " " ++ printTy rt, span⟩
  if COMPARISON_KINDS.contains k then
    if lt.isInt && rt.isInt then (TY_BOOL, st)
    else if lt.isI32 && rt.isI32 then (TY_BOOL, st)
    else if lt.isString && rt.isString then (TY_BOOL, st)
    else if lt.isRawptr && rt.isRawptr then
      (TY_BOOL, assignTy lt.inner! rt.inner! span st)
    else if EQUALITY_KINDS.contains k && lt.isBool && rt.isBool then (TY_BOOL, st)
    else arith
  else arith

/-- The tail of `checkUnary`: `!` on `int`/`i32`/`bool` returns the operand
type; everything else (including `-`, acknowledged unsupported) diagnoses. -/
def unaryOpTy (k : UnaryKind) (rt : Ty) (span : Span) (st : ChkSt) : Ty × ChkSt :=
  if k = .not && (rt.isInt || rt.isI32 || rt.isBool) then (rt, st)
  else
    tyErrorSt st
      ⟨"invalid types for unary operation: " ++ k.asStr ++ " " ++ printTy rt, span⟩

/-- `checkLValue`: an l-value is an ident/path or a field-access chain over
one; anything else diagnoses. -/
def checkLValue (st : ChkSt) : TExpr → ChkSt
  | .ident _ _ _ _ _ => st
  | .path _ _ _ _ _ => st
  | .fieldAccess lhs _ _ _ _ _ => checkLValue st lhs
  | e => emitDiag st ⟨"invalid left-hand side of assignment", e.span⟩

/-- The struct-literal field loop (`typeck/expr.ts` lines 459–476): for each
field, `findIndex` into `fields_no_subst`; `-1` emits a diagnostic **and then
still indexes the array with `-1`**, so `fieldTy` is `undefined` and
`fieldTy[1]` throws a `TypeError`. -/
def structLitFieldLoop (structName : String) (structFields : List (String × Ty)) :
    List (String × Span × TExpr) → ChkSt → List String →
    Except Err (List (String × Span × TExpr × Option Nat) × ChkSt × List String)
  | [], st, assigned => .ok ([], st, assigned)
  | (fname, fspan, fexpr) :: rest, st, assigned =>
    match structFields.findIdx? (fun def_ => def_.1 = fname) with
    | none =>
      -- the diagnostic is submitted to the sink, and then
      -- `structTy.fields_no_subst[-1]` is `undefined`, so `fieldTy[1]` throws.
      let _st₁ := emitDiag st
        ⟨"field " ++ fname ++ " doesn't exist on type " ++ structName, fspan⟩
      .error (.js "TypeError: cannot read properties of undefined (reading 1)")
    | some idx =>
      let fieldTy := (structFields.get? idx).map Prod.snd |>.getD .error
      let st₁ := assignTy fieldTy fexpr.ty fexpr.span st
      let assigned₁ := assigned ++ [fname]
      match structLitFieldLoop structName structFields rest st₁ assigned₁ with
      | .error e => .error e
      | .ok (rest', st₂, assigned₂) =>
        .ok ((fname, fspan, fexpr, some idx) :: rest', st₂, assigned₂)

/-- `exprError`: the error-sentinel expression. -/
def exprErrorT (err : Nat) (span : Span) : TExpr := .error err span .error

/-- The `checkCall` intrinsic test:
`expr.lhs.kind === "ident" && expr.lhs.value.res.kind === "builtin" &&
expr.lhs.value.res.name === "___transmute"`. -/
def isTransmuteCallee : RExpr → Bool
  | .ident _ _ (.builtin "___transmute") _ => true
  | _ => false

/-- `{ ...expr.lhs, ty: TY_UNIT }` in the transmute branch; only applied to the
`ident` the guard just matched. -/
def transmuteLhsT : RExpr → TExpr
  | .ident n vs res isp => .ident n vs res isp TY_UNIT
  | e => .error 0 e.span .error

/-- The argument loop of `checkCall`: each missing argument diagnoses (the
`forEach` continues); present arguments unify with their parameters. -/
def checkCallArgsLoop (params : List Ty) (args : List TExpr) (span : Span)
    (st : ChkSt) : ChkSt :=
  match params, args with
  | [], _ => st
  | p :: prest, [] =>
    checkCallArgsLoop prest []
      span (emitDiag st ⟨"missing argument of type " ++ printTy p, span⟩)
  | p :: prest, a :: arest =>
    checkCallArgsLoop prest arest span (assignTy p a.ty a.span st)

/-- Field access on a struct's field list (shared by the `struct` and
`rawptr`-to-struct arms). -/
def checkFieldOnStruct (lhs : TExpr) (fields : List (String × Ty))
    (fval : FieldVal) (fspan sp : Span) (st : ChkSt) :
    Except Err (TExpr × ChkSt) :=
  match fval with
  | .str fname =>
    match fields.findIdx? (fun f => f.1 = fname) with
    | none =>
      let (ty, st₂) := tyErrorSt st
        ⟨"field `" ++ fname ++ "` does not exist on " ++ printTy lhs.ty, fspan⟩
      .ok (.fieldAccess lhs fval fspan none sp ty, st₂)
    | some idx =>
      .ok (.fieldAccess lhs fval fspan (some idx) sp
             ((fields.get? idx).map Prod.snd |>.getD .error), st)
  | .num _ =>
    let (ty, st₂) := tyErrorSt st
      ⟨"struct fields must be accessed with their name", fspan⟩
    .ok (.fieldAccess lhs fval fspan none sp ty, st₂)


-- The body checker's expression folder (`checker.expr` inside `checkBody`).

mutual

def checkExpr (cx : ChkCtx) (st : ChkSt) : RExpr → Except Err (TExpr × ChkSt)
  | .empty sp => .ok (.empty sp TY_UNIT, st)
  | .elet name nspan tyAsc rhs _ sp =>
    let (loweredBindingTy, st₀) :=
      (match tyAsc with
       | none => (none, st)
       | some t =>
         let (t', st') := lowerAstTy cx st t
         (some t', st') : Option Ty × ChkSt)
    let (bindingTy, st₁) :=
      match loweredBindingTy with
      | some t => (t, st₀)
      | none => newVar st₀
    match checkExpr cx st₁ rhs with
    | .error e => .error e
    | .ok (rhs', st₂) =>
      let st₃ := assignTy bindingTy rhs'.ty sp st₂
      let st₄ := { st₃ with localTys := st₃.localTys ++ [bindingTy] }
      let tyOut : Option RType :=
        match loweredBindingTy with
        | some _ => tyAsc
        | none => none
      .ok (.elet name nspan tyOut rhs' sp TY_UNIT, st₄)
  | .assign lhs rhs sp =>
    match checkExpr cx st lhs with
    | .error e => .error e
    | .ok (lhs', st₁) =>
      match checkExpr cx st₁ rhs with
      | .error e => .error e
      | .ok (rhs', st₂) =>
        let st₃ := assignTy lhs'.ty rhs'.ty sp st₂
        let st₄ :=
          match lhs' with
          | .ident _ _ res _ _ =>
            (match res with
             | .local_ _ => st₃
             | .item id =>
               if (cx.findItem id).kind = .global then st₃
               else emitDiag st₃ ⟨"cannot assign to item", sp⟩
             | .builtin _ => emitDiag st₃ ⟨"cannot assign to builtins", sp⟩
             | _ => st₃)
          | .path _ res _ _ _ =>
            (match res with
             | .local_ _ => st₃
             | .item id =>
               if (cx.findItem id).kind = .global then st₃
               else emitDiag st₃ ⟨"cannot assign to item", sp⟩
             | .builtin _ => emitDiag st₃ ⟨"cannot assign to builtins", sp⟩
             | _ => st₃)
          | .fieldAccess l _ _ _ _ _ => checkLValue st₃ l
          | e => emitDiag st₃ ⟨"invalid left-hand side of assignment", e.span⟩
        .ok (.assign lhs' rhs' sp TY_UNIT, st₄)
  | .block exprs locals sp =>
    let prevLocalTysLen := st.localTys.length
    match checkExprs cx st exprs with
    | .error e => .error e
    | .ok (exprs', st₁) =>
      let ty := match exprs'.getLast? with
                | some last => last.ty
                | none => TY_UNIT
      let st₂ := { st₁ with localTys := st₁.localTys.take prevLocalTysLen }
      .ok (.block exprs' locals sp ty, st₂)
  | .lit v sp =>
    let ty := match v with
              | .str _ _ => TY_STRING
              | .int _ .int => TY_INT
              | .int _ .i32 => TY_I32
    .ok (.lit v sp ty, st)
  | .ident name vspan res sp =>
    let (ty, st₁) := typeOfValue cx res vspan st
    .ok (.ident name vspan res sp ty, st₁)
  | .path segs res vspan sp =>
    let (ty, st₁) := typeOfValue cx res vspan st
    .ok (.path segs res vspan sp ty, st₁)
  | .binary k lhs rhs sp =>
    -- `checkBinary`: check both operands, resolve their types in place, then
    -- the operator table (`binaryOpTy`).
    match checkExpr cx st lhs with
    | .error e => .error e
    | .ok (lhs', st₁) =>
      match checkExpr cx st₁ rhs with
      | .error e => .error e
      | .ok (rhs', st₂) =>
        let lhs₂ := lhs'.withTy (resolveIfPossible st₂ lhs'.ty)
        let rhs₂ := rhs'.withTy (resolveIfPossible st₂ rhs'.ty)
        let (ty, st₃) := binaryOpTy k lhs₂.ty rhs₂.ty sp st₂
        .ok (.binary k lhs₂ rhs₂ sp ty, st₃)
  | .unary k rhs sp =>
    match checkExpr cx st rhs with
    | .error e => .error e
    | .ok (rhs', st₁) =>
      let rhs₂ := rhs'.withTy (resolveIfPossible st₁ rhs'.ty)
      let (ty, st₂) := unaryOpTy k rhs₂.ty sp st₁
      .ok (.unary k rhs₂ sp ty, st₂)
  | .call lhs args sp =>
    -- `checkCall`: the `___transmute` intrinsic short-circuits with a fresh
    -- var; otherwise require `fn`, unify arguments, diagnose arity.
    if isTransmuteCallee lhs then
      let (ty, st₁) := newVar st
      match checkExprs cx st₁ args with
      | .error e => .error e
      | .ok (args', st₂) =>
        .ok (.call (transmuteLhsT lhs) args' sp ty, st₂)
    else
      match checkExpr cx st lhs with
      | .error e => .error e
      | .ok (lhs', st₁) =>
        let lhs₂ := lhs'.withTy (resolveIfPossible st₁ lhs'.ty)
        match checkExprs cx st₁ args with
        | .error e => .error e
        | .ok (args', st₂) =>
          match lhs₂.ty with
          | .fn params returnTy =>
            let st₃ := checkCallArgsLoop params args' sp st₂
            let st₄ :=
              if args'.length > params.length then
                emitDiag st₃
                  ⟨"too many arguments passed, expected " ++
                    toString params.length ++ ", found " ++
                    toString args'.length, sp⟩
              else st₃
            .ok (.call lhs₂ args' sp returnTy, st₄)
          | lhsTy =>
            let (ty, st₃) := tyErrorSt st₂
              ⟨"expression of type " ++ printTy lhsTy ++ " is not callable",
               lhs₂.span⟩
            .ok (.call lhs₂ args' sp ty, st₃)
  | .fieldAccess lhs fval fspan _ sp =>
    match checkExpr cx st lhs with
    | .error e => .error e
    | .ok (lhs', st₁) =>
      let lhs₂ := lhs'.withTy (resolveIfPossible st₁ lhs'.ty)
      match lhs₂.ty with
      | .tuple elems =>
        match fval with
        | .num n =>
          if elems.length > n then
            .ok (.fieldAccess lhs₂ fval fspan (some n) sp
                   ((elems.get? n).getD .error), st₁)
          else
            let (ty, st₂) := tyErrorSt st₁
              ⟨"tuple with " ++ toString elems.length ++
                " elements cannot be indexed with " ++ toString n, fspan⟩
            .ok (.fieldAccess lhs₂ fval fspan none sp ty, st₂)
        | .str _ =>
          let (ty, st₂) := tyErrorSt st₁
            ⟨"tuple fields must be accessed with numbers", fspan⟩
          .ok (.fieldAccess lhs₂ fval fspan none sp ty, st₂)
      | .struct _ fields =>
        checkFieldOnStruct lhs₂ fields fval fspan sp st₁
      | .rawptr inner =>
        match resolveIfPossible st₁ inner with
        | .struct _ fields => checkFieldOnStruct lhs₂ fields fval fspan sp st₁
        | _ =>
          let (ty, st₂) := tyErrorSt st₁
            ⟨"fields can only be accessed on pointers pointing to a struct",
             lhs₂.span⟩
          .ok (.fieldAccess lhs₂ fval fspan none sp ty, st₂)
      | lhsTy =>
        let (ty, st₂) := tyErrorSt st₁
          ⟨"cannot access field `" ++ fval.asStr ++ "` on type `" ++
            printTy lhsTy ++ "`", sp⟩
        .ok (.fieldAccess lhs₂ fval fspan none sp ty, st₂)
  | .ifE cond thenE elseE sp =>
    match checkExpr cx st cond with
    | .error e => .error e
    | .ok (cond', st₁) =>
      match checkExpr cx st₁ thenE with
      | .error e => .error e
      | .ok (then', st₂) =>
        match checkOptExpr cx st₂ elseE with
        | .error e => .error e
        | .ok (some else', st₃) =>
          let st₄ := assignTy TY_BOOL cond'.ty cond'.span st₃
          let st₅ := assignTy then'.ty else'.ty else'.span st₄
          .ok (.ifE cond' then' (some else') sp then'.ty, st₅)
        | .ok (none, st₃) =>
          let st₄ := assignTy TY_BOOL cond'.ty cond'.span st₃
          let st₅ := assignTy TY_UNIT then'.ty then'.span st₄
          .ok (.ifE cond' then' none sp TY_UNIT, st₅)
  | .loop body loopId sp =>
    -- push a loop-state record; check the body; assign the body to unit; pop.
    -- `const hadBreak = fcx.loopState.pop()` pops the **record object** (or JS
    -- `undefined` when empty), and `hadBreak ? TY_UNIT : TY_NEVER` tests its
    -- truthiness, not the `hasBreak` flag.
    let st₀ := { st with loopState := st.loopState ++ [⟨false, loopId⟩] }
    match checkExpr cx st₀ body with
    | .error e => .error e
    | .ok (body', st₁) =>
      let st₂ := assignTy TY_UNIT body'.ty body'.span st₁
      let hadBreak := st₂.loopState.getLast?
      let st₃ := { st₂ with loopState := st₂.loopState.dropLast }
      let ty := match hadBreak with
                | some _ => TY_UNIT
                | none => TY_NEVER
      .ok (.loop body' loopId sp ty, st₃)
  | .brk sp =>
    match st.loopState.getLast? with
    | none =>
      let st₁ := emitDiag st ⟨"break outside loop", sp⟩
      .ok (exprErrorT 0 sp, st₁)
    | some top =>
      let st₁ := { st with
        loopState := st.loopState.dropLast ++ [⟨true, top.loopId⟩] }
      .ok (.brk (some top.loopId) sp TY_NEVER, st₁)
  | .structLit name nspan nres fields sp =>
    -- the fields' expressions are checked first, then the struct type is
    -- resolved; a non-struct type diagnoses and returns the error sentinel.
    match checkFields cx st fields with
    | .error e => .error e
    | .ok (fields', st₁) =>
      let (structTy, st₂) := typeOfValue cx nres nspan st₁
      match structTy with
      | .struct sid sfields =>
        match structLitFieldLoop name sfields fields' st₂ [] with
        | .error e => .error e
        | .ok (fields'', st₃, assigned) =>
          let missing := (sfields.map Prod.fst).filter
            (fun n => !(assigned.contains n))
          let st₄ :=
            if missing.length > 0 then
              emitDiag st₃
                ⟨"missing fields in literal: " ++ String.intercalate ", " missing, sp⟩
            else st₃
          .ok (.structLit name nspan nres fields'' sp (.struct sid sfields), st₄)
      | _ =>
        let st₃ := emitDiag st₂
          ⟨"struct literal is only allowed for struct types", sp⟩
        .ok (exprErrorT 0 sp, st₃)
  | .tupleLit fields sp =>
    match checkExprs cx st fields with
    | .error e => .error e
    | .ok (fields', st₁) =>
      .ok (.tupleLit fields' sp (.tuple (fields'.map TExpr.ty)), st₁)
  | .asm _ =>
    -- the checker's `switch` has no `asm` case: it falls through and returns
    -- JS `undefined`, which the caller then dereferences.
    .error (.js "TypeError: checker returned undefined for asm")
  | .error err sp => .ok (.error err sp .error, st)
termination_by e => sizeOf e

def checkOptExpr (cx : ChkCtx) (st : ChkSt) :
    Option RExpr → Except Err (Option TExpr × ChkSt)
  | none => .ok (none, st)
  | some e =>
    match checkExpr cx st e with
    | .error er => .error er
    | .ok (e', st₁) => .ok (some e', st₁)
termination_by oe => sizeOf oe

def checkExprs (cx : ChkCtx) (st : ChkSt) :
    List RExpr → Except Err (List TExpr × ChkSt)
  | [] => .ok ([], st)
  | e :: rest =>
    match checkExpr cx st e with
    | .error er => .error er
    | .ok (e', st₁) =>
      match checkExprs cx st₁ rest with
      | .error er => .error er
      | .ok (rest', st₂) => .ok (e' :: rest', st₂)
termination_by es => sizeOf es

def checkFields (cx : ChkCtx) (st : ChkSt) :
    List (String × Span × RExpr) → Except Err (List (String × Span × TExpr) × ChkSt)
  | [] => .ok ([], st)
  | (n, nsp, e) :: rest =>
    match checkExpr cx st e with
    | .error er => .error er
    | .ok (e', st₁) =>
      match checkFields cx st₁ rest with
      | .error er => .error er
      | .ok (rest', st₂) => .ok ((n, nsp, e') :: rest', st₂)
termination_by fs => sizeOf fs

end

-- ## Builder and post-build validator (the parser file: `buildPkg`, `validateAst`)

/-- Items (one shape across phases: the parser assigns `ItemId.dummy()`, the
builder the real id).  Only `function` bodies, `global` initializers and `mod`
contents carry sub-structure relevant to identifier/loop assignment; the other
variants' payloads (types, import strings, use segments) contain no items and
no expressions. -/
inductive Item where
  | function (name : String) (body : BExpr) (id : ItemId) (span : Span)
  | typeItem (name : String) (id : ItemId) (span : Span)
  | importItem (name : String) (id : ItemId) (span : Span)
  | mod (name : String) (contents : List Item) (id : ItemId) (span : Span)
  | extMod (name : String) (id : ItemId) (span : Span)
  | globalItem (name : String) (ty : BType) (init : BExpr) (id : ItemId) (span : Span)
  | useItem (name : String) (segments : List String) (id : ItemId) (span : Span)
  | errItem (err : Nat) (id : ItemId) (span : Span)

def Item.id : Item → ItemId
  | .function _ _ i _ => i
  | .typeItem _ i _ => i
  | .importItem _ i _ => i
  | .mod _ _ i _ => i
  | .extMod _ i _ => i
  | .globalItem _ _ _ i _ => i
  | .useItem _ _ i _ => i
  | .errItem _ i _ => i

-- ### The builder's expression folder: `superFoldExpr` plus, on `loop`,
-- `{...superFoldExpr(expr, this), loopId: loopId.next()}` — the body is
-- folded (numbering inner loops) **before** this loop draws its id.
-- The counter is an `Ids` instance; `utils.ts` is not under `src/`, so per
-- the spec it is modelled as handing out consecutive naturals from 0.

mutual

def buildExpr (c : Nat) : BExpr → BExpr × Nat
  | .empty sp => (.empty sp, c)
  | .elet name nspan ty rhs sp =>
    let (rhs', c₁) := buildExpr c rhs
    (.elet name nspan ty rhs' sp, c₁)
  | .assign lhs rhs sp =>
    let (lhs', c₁) := buildExpr c lhs
    let (rhs', c₂) := buildExpr c₁ rhs
    (.assign lhs' rhs' sp, c₂)
  | .block exprs sp =>
    let (exprs', c₁) := buildExprs c exprs
    (.block exprs' sp, c₁)
  | .lit v sp => (.lit v sp, c)
  | .ident name vspan sp => (.ident name vspan sp, c)
  | .path segs res vspan sp => (.path segs res vspan sp, c)
  | .binary k lhs rhs sp =>
    let (lhs', c₁) := buildExpr c lhs
    let (rhs', c₂) := buildExpr c₁ rhs
    (.binary k lhs' rhs' sp, c₂)
  | .unary k rhs sp =>
    let (rhs', c₁) := buildExpr c rhs
    (.unary k rhs' sp, c₁)
  | .call lhs args sp =>
    let (lhs', c₁) := buildExpr c lhs
    let (args', c₂) := buildExprs c₁ args
    (.call lhs' args' sp, c₂)
  | .fieldAccess lhs fval fspan fieldIdx sp =>
    let (lhs', c₁) := buildExpr c lhs
    (.fieldAccess lhs' fval fspan fieldIdx sp, c₁)
  | .ifE cond thenE elseE sp =>
    let (cond', c₁) := buildExpr c cond
    let (then', c₂) := buildExpr c₁ thenE
    match elseE with
    | none => (.ifE cond' then' none sp, c₂)
    | some els =>
      let (else', c₃) := buildExpr c₂ els
      (.ifE cond' then' (some else') sp, c₃)
  | .loop body _ sp =>
    let (body', c₁) := buildExpr c body
    (.loop body' c₁ sp, c₁ + 1)
  | .brk sp => (.brk sp, c)
  | .structLit name nspan fields sp =>
    let (fields', c₁) := buildFieldExprs c fields
    (.structLit name nspan fields' sp, c₁)
  | .tupleLit fields sp =>
    let (fields', c₁) := buildExprs c fields
    (.tupleLit fields' sp, c₁)
  | .asm sp => (.asm sp, c)
  | .error err sp => (.error err sp, c)

def buildExprs (c : Nat) : List BExpr → List BExpr × Nat
  | [] => ([], c)
  | e :: rest =>
    let (e', c₁) := buildExpr c e
    let (rest', c₂) := buildExprs c₁ rest
    (e' :: rest', c₂)

def buildFieldExprs (c : Nat) :
    List (String × Span × BExpr) → List (String × Span × BExpr) × Nat
  | [] => ([], c)
  | (n, nsp, e) :: rest =>
    let (e', c₁) := buildExpr c e
    let (rest', c₂) := buildFieldExprs c₁ rest
    ((n, nsp, e') :: rest', c₂)

end

-- ### The builder's item folder: `itemInner` draws the item's id **before**
-- `superFoldItem` recurses (preorder), threading the shared loop counter
-- through bodies and initializers.

mutual

def buildItem (pkgId : Nat) (ic lc : Nat) : Item → Item × Nat × Nat
  | .function name body _ sp =>
    let id := ItemId.mk pkgId ic
    let (body', lc₁) := buildExpr lc body
    (.function name body' id sp, ic + 1, lc₁)
  | .typeItem name _ sp => (.typeItem name (ItemId.mk pkgId ic) sp, ic + 1, lc)
  | .importItem name _ sp => (.importItem name (ItemId.mk pkgId ic) sp, ic + 1, lc)
  | .mod name contents _ sp =>
    let id := ItemId.mk pkgId ic
    let (contents', ic₁, lc₁) := buildItems pkgId (ic + 1) lc contents
    (.mod name contents' id sp, ic₁, lc₁)
  | .extMod name _ sp => (.extMod name (ItemId.mk pkgId ic) sp, ic + 1, lc)
  | .globalItem name ty init _ sp =>
    let id := ItemId.mk pkgId ic
    let (init', lc₁) := buildExpr lc init
    (.globalItem name ty init' id sp, ic + 1, lc₁)
  | .useItem name segs _ sp => (.useItem name segs (ItemId.mk pkgId ic) sp, ic + 1, lc)
  | .errItem err _ sp => (.errItem err (ItemId.mk pkgId ic) sp, ic + 1, lc)

def buildItems (pkgId : Nat) (ic lc : Nat) : List Item → List Item × Nat × Nat
  | [] => ([], ic, lc)
  | item :: rest =>
    let (item', ic₁, lc₁) := buildItem pkgId ic lc item
    let (rest', ic₂, lc₂) := buildItems pkgId ic₁ lc₁ rest
    (item' :: rest', ic₂, lc₂)

end

/-- `buildPkg`: `itemId.next()` is called once for the package-root id, so
item numbering starts at 1; the loop counter starts at 0. -/
def buildPkgItems (pkgId : Nat) (rootItems : List Item) : List Item × Nat × Nat :=
  buildItems pkgId 1 0 rootItems

-- ### Collecting assigned identifiers, in the traversal order shared by the
-- builder and the validator.

mutual

def collectItemIds : List Item → List ItemId
  | [] => []
  | item :: rest => collectItemIdsOf item ++ collectItemIds rest

def collectItemIdsOf : Item → List ItemId
  | .mod _ contents id _ => id :: collectItemIds contents
  | item => [item.id]

end

mutual

def collectLoopIds : BExpr → List Nat
  | .elet _ _ _ rhs _ => collectLoopIds rhs
  | .assign lhs rhs _ => collectLoopIds lhs ++ collectLoopIds rhs
  | .block exprs _ => collectLoopIdsList exprs
  | .binary _ lhs rhs _ => collectLoopIds lhs ++ collectLoopIds rhs
  | .unary _ rhs _ => collectLoopIds rhs
  | .call lhs args _ => collectLoopIds lhs ++ collectLoopIdsList args
  | .fieldAccess lhs _ _ _ _ => collectLoopIds lhs
  | .ifE cond thenE elseE _ =>
    collectLoopIds cond ++ collectLoopIds thenE ++
      (match elseE with
       | none => []
       | some e => collectLoopIds e)
  | .loop body loopId _ => collectLoopIds body ++ [loopId]
  | .structLit _ _ fields _ => collectLoopIdsFields fields
  | .tupleLit fields _ => collectLoopIdsList fields
  | _ => []

def collectLoopIdsList : List BExpr → List Nat
  | [] => []
  | e :: rest => collectLoopIds e ++ collectLoopIdsList rest

def collectLoopIdsFields : List (String × Span × BExpr) → List Nat
  | [] => []
  | (_, _, e) :: rest => collectLoopIds e ++ collectLoopIdsFields rest

end

mutual

def collectItemLoopIds : List Item → List Nat
  | [] => []
  | item :: rest => collectItemLoopIdsOf item ++ collectItemLoopIds rest

def collectItemLoopIdsOf : Item → List Nat
  | .function _ body _ _ => collectLoopIds body
  | .mod _ contents _ _ => collectItemLoopIds contents
  | .globalItem _ _ init _ _ => collectLoopIds init
  | _ => []

end

-- ### `validateAst`: the expression checks only emit diagnostics (`let` is
-- only allowed in blocks; operators of different precedence classes must be
-- parenthesized); the only way the validator rejects is the duplicate-item-id
-- `throw new Error(...)`.

mutual

def validateExpr (gdiags : List CompilerError) : BExpr → List CompilerError
  | .block exprs _ => validateBlockExprs gdiags exprs
  | .elet _ _ _ rhs sp =>
    let gdiags₁ := gdiags ++ [⟨"let is only allowed in blocks", sp⟩]
    validateExpr gdiags₁ rhs
  | .binary k lhs rhs sp =>
    let checkSide (g : List CompilerError) (inner : BExpr) (side : String) :
        List CompilerError :=
      match inner with
      | .binary ik _ _ _ =>
        if binaryExprPrecedenceClass k ≠ binaryExprPrecedenceClass ik then
          g ++ [⟨"mixing operators without parentheses is not allowed. " ++
                  side ++ " is " ++ ik.asStr ++
                  ", which is different from " ++ k.asStr, sp⟩]
        else g
      | _ => g
    let g₁ := checkSide gdiags lhs "left"
    let g₂ := checkSide g₁ rhs "right"
    validateExpr (validateExpr g₂ lhs) rhs
  | .assign lhs rhs _ => validateExpr (validateExpr gdiags lhs) rhs
  | .unary _ rhs _ => validateExpr gdiags rhs
  | .call lhs args _ => validateExprList (validateExpr gdiags lhs) args
  | .fieldAccess lhs _ _ _ _ => validateExpr gdiags lhs
  | .ifE cond thenE elseE _ =>
    let g₁ := validateExpr (validateExpr gdiags cond) thenE
    (match elseE with
     | none => g₁
     | some e => validateExpr g₁ e)
  | .loop body _ _ => validateExpr gdiags body
  | .structLit _ _ fields _ => validateExprFields gdiags fields
  | .tupleLit fields _ => validateExprList gdiags fields
  | _ => gdiags

def validateBlockExprs (gdiags : List CompilerError) : List BExpr → List CompilerError
  | [] => gdiags
  | inner :: rest =>
    let g₁ := match inner with
              | .elet _ _ _ rhs _ => validateExpr gdiags rhs
              | e => validateExpr gdiags e
    validateBlockExprs g₁ rest

def validateExprList (gdiags : List CompilerError) : List BExpr → List CompilerError
  | [] => gdiags
  | e :: rest => validateExprList (validateExpr gdiags e) rest

def validateExprFields (gdiags : List CompilerError) :
    List (String × Span × BExpr) → List CompilerError
  | [] => gdiags
  | (_, _, e) :: rest => validateExprFields (validateExpr gdiags e) rest

end

mutual

def validateItem (seen : List ItemId) (gdiags : List CompilerError) :
    Item → Except Err (List ItemId × List CompilerError)
  | .function _ body id _ =>
    if seen.contains id then .error (.js "duplicate item id")
    else .ok (seen ++ [id], validateExpr gdiags body)
  | .mod _ contents id _ =>
    if seen.contains id then .error (.js "duplicate item id")
    else validateItemList (seen ++ [id]) gdiags contents
  | .globalItem _ _ init id _ =>
    if seen.contains id then .error (.js "duplicate item id")
    else .ok (seen ++ [id], validateExpr gdiags init)
  | .typeItem _ id _ =>
    if seen.contains id then .error (.js "duplicate item id")
    else .ok (seen ++ [id], gdiags)
  | .importItem _ id _ =>
    if seen.contains id then .error (.js "duplicate item id")
    else .ok (seen ++ [id], gdiags)
  | .extMod _ id _ =>
    if seen.contains id then .error (.js "duplicate item id")
    else .ok (seen ++ [id], gdiags)
  | .useItem _ _ id _ =>
    if seen.contains id then .error (.js "duplicate item id")
    else .ok (seen ++ [id], gdiags)
  | .errItem _ id _ =>
    if seen.contains id then .error (.js "duplicate item id")
    else .ok (seen ++ [id], gdiags)

def validateItemList (seen : List ItemId) (gdiags : List CompilerError) :
    List Item → Except Err (List ItemId × List CompilerError)
  | [] => .ok (seen, gdiags)
  | item :: rest =>
    match validateItem seen gdiags item with
    | .error e => .error e
    | .ok (seen₁, gdiags₁) => validateItemList seen₁ gdiags₁ rest

end

/-- `validateAst` over a package's root items: accepts (returns `ok`) unless a
duplicate item id is encountered. -/
def validateAst (rootItems : List Item) : Except Err (List ItemId × List CompilerError) :=
  validateItemList [] [] rootItems

-- ## The generic expression super-fold (`superFoldExpr`, `ast.ts` 671–792)
-- as a one-layer fold at the Resolved phase (a `Folder` is a record of
-- callbacks; `item`/`itemInner` play no role for a single expression node).

structure ExprFolder where
  expr : RExpr → RExpr
  ident : String × Span × Resolution → String × Span × Resolution
  type : RType → RType

/-- `superFoldExpr(expr, folder)` for one node: each case rebuilds the node,
folding sub-expressions with `folder.expr`.  The `fieldAccess` case is
`{ ...expr, kind: "fieldAccess", lhs: folder.expr(expr.lhs) }` — the spread
retains the whole `field` record, including `fieldIdx`.  The `structLiteral`
case rebuilds each field from `{ name, expr }` only.  `path`, `asm` and
`error` are spread through unchanged. -/
def superFoldExprR (f : ExprFolder) : RExpr → RExpr
  | .empty sp => .empty sp
  | .elet name nspan ty rhs localInfo sp =>
    .elet name nspan (ty.map f.type) (f.expr rhs) localInfo sp
  | .assign lhs rhs sp => .assign (f.expr lhs) (f.expr rhs) sp
  | .block exprs locals sp => .block (exprs.map f.expr) locals sp
  | .lit v sp => .lit v sp
  | .ident name vspan res sp =>
    let (name', vspan', res') := f.ident (name, vspan, res)
    .ident name' vspan' res' sp
  | .path segs res vspan sp => .path segs res vspan sp
  | .binary k lhs rhs sp => .binary k (f.expr lhs) (f.expr rhs) sp
  | .unary k rhs sp => .unary k (f.expr rhs) sp
  | .call lhs args sp => .call (f.expr lhs) (args.map f.expr) sp
  | .fieldAccess lhs fval fspan fieldIdx sp =>
    .fieldAccess (f.expr lhs) fval fspan fieldIdx sp
  | .ifE cond thenE elseE sp =>
    .ifE (f.expr cond) (f.expr thenE) (elseE.map f.expr) sp
  | .loop body loopId sp => .loop (f.expr body) loopId sp
  | .brk sp => .brk sp
  | .structLit name nspan nres fields sp =>
    .structLit name nspan nres
      (fields.map (fun fld => (fld.1, fld.2.1, f.expr fld.2.2))) sp
  | .tupleLit fields sp => .tupleLit (fields.map f.expr) sp
  | .asm sp => .asm sp
  | .error err sp => .error err sp

-- ## Shared fixtures and helper lemmas

def sp0 : Span := ⟨0, 0⟩

/-- An empty resolver context: no module items, no packages in scope. -/
def rctx0 : RCtx := ⟨[], [], fun _ => ⟨.error, ""⟩, fun _ _ => none⟩

def rst0 : RState := ⟨[], []⟩

/-- An empty checker context. -/
def chkCtx0 : ChkCtx := ⟨fun _ => .error, fun _ => ⟨.error, ""⟩⟩

def chkSt0 : ChkSt := ⟨0, [], [], [], []⟩

theorem Ty.isInt_iff {t : Ty} : t.isInt = true ↔ t = .int := by
  cases t <;> simp [Ty.isInt]

theorem Ty.isI32_iff {t : Ty} : t.isI32 = true ↔ t = .i32 := by
  cases t <;> simp [Ty.isI32]

theorem Ty.isBool_iff {t : Ty} : t.isBool = true ↔ t = .bool := by
  cases t <;> simp [Ty.isBool]

/-- The `fieldIdx` slot of a `fieldAccess` node. -/
def RExpr.fieldIdxOf : RExpr → Option Nat
  | .fieldAccess _ _ _ fi _ => fi
  | _ => none

def idExprFolder : ExprFolder := ⟨id, id, id⟩

-- ## C9

/-- C9 counterexample: `superFoldExpr` does **not** drop `field.fieldIdx` on a
`fieldAccess` node — folding a node whose `fieldIdx` is `some 3` (with the
identity folder) yields an output whose `fieldIdx` is still `some 3`, not
absent as the claim states. -/
theorem c9_superFoldExpr_fieldIdx_not_dropped :
    (superFoldExprR idExprFolder
        (.fieldAccess (.lit (.int 1 .int) sp0) (.str "x") sp0 (some 3) sp0)).fieldIdxOf
      = some 3 ∧ (some 3 : Option Nat) ≠ none := by
  constructor
  · rfl
  · simp

/-- C9 (amended): for every `fieldAccess` expression, `superFoldExpr` rebuilds
the node with the folded lhs and the **entire `field` record retained** — the
field's value, span and `fieldIdx` are all preserved (nothing is dropped). -/
theorem c9_superFoldExpr_fieldAccess_retains_field
    (f : ExprFolder) (lhs : RExpr) (fval : FieldVal) (fspan : Span)
    (fieldIdx : Option Nat) (sp : Span) :
    superFoldExprR f (.fieldAccess lhs fval fspan fieldIdx sp)
      = .fieldAccess (f.expr lhs) fval fspan fieldIdx sp := rfl

-- ## C10

/-- C10: each occurrence of `__NULL` used as a value is typed as a raw pointer
around a **freshly created inference variable**: evaluating
`typeOfBuiltinValue` twice in sequence (any spans, any starting state) yields
`rawptr` types whose pointee variables are distinct, so the two occurrences
are inferred independently. -/
theorem c10_null_fresh_var_per_occurrence (st : ChkSt) (sp sp' : Span) :
    ∃ v₁ v₂ : Nat,
      (typeOfBuiltinValue "__NULL" sp st).1 = .rawptr (.var v₁) ∧
      (typeOfBuiltinValue "__NULL" sp' (typeOfBuiltinValue "__NULL" sp st).2).1
        = .rawptr (.var v₂) ∧
      v₁ ≠ v₂ := by
  refine ⟨st.nextVar, st.nextVar + 1, ?_, ?_, ?_⟩
  · simp [typeOfBuiltinValue, newVar]
  · simp [typeOfBuiltinValue, newVar]
  · omega

-- ## C3

/-- C3: the builtin set recognized by identifier resolution omits the
memory-size and memory-grow primitives: `__memory_size` and `__memory_grow`
are not in `BUILTINS`, so an unshadowed occurrence of `__memory_size` throws
`cannot find __memory_size` instead of resolving to a builtin — even though
`typeOfBuiltinValue` has (dead) cases assigning both a function type, and the
load/store primitives do resolve and get function types. -/
theorem c3_memory_builtins_missing :
    BUILTINS.contains "__memory_size" = false ∧
    BUILTINS.contains "__memory_grow" = false ∧
    resolveIdentRes rctx0 rst0 "__memory_size" sp0
      = .error (.compiler ⟨"cannot find __memory_size", sp0⟩) ∧
    BUILTINS.contains "__i32_load" = true ∧
    typeOfBuiltinValue "__i32_load" sp0 chkSt0 = (mkTyFn [TY_I32] TY_I32, chkSt0) ∧
    typeOfBuiltinValue "__memory_size" sp0 chkSt0 = (mkTyFn [] TY_I32, chkSt0) ∧
    typeOfBuiltinValue "__memory_grow" sp0 chkSt0 = (mkTyFn [TY_I32] TY_I32, chkSt0) := by
  refine ⟨?_, ?_, ?_, ?_, ?_, ?_, ?_⟩
  · simp [BUILTINS]
  · simp [BUILTINS]
  · simp [resolveIdentRes, resolveLocalIdx, rctx0, rst0, BUILTINS]
  · simp [BUILTINS]
  · rfl
  · rfl
  · rfl


theorem assign_unit_int (sp : Span) (st : ChkSt) :
    assignTy TY_UNIT TY_INT sp st = emitDiag st ⟨"mismatched types", sp⟩ := by
  simp [assignTy, assignF, resolveIfPossible, chaseVar, TY_UNIT, TY_INT]

theorem chk_lit_int (cx : ChkCtx) (st : ChkSt) (n : Nat) (sp : Span) :
    checkExpr cx st (.lit (.int n .int) sp) = .ok (.lit (.int n .int) sp TY_INT, st) := by
  simp [checkExpr]

-- ## C1

/-- C1: checking `loop ( 1 )` — a loop whose body contains **no** `break` —
assigns the loop the unit type, not `never`: the pop of the loop-state stack
returns the record object, whose truthiness (not its `hasBreak` flag) selects
the type, so `TY_UNIT` is chosen whenever the stack is non-empty.  The claim
(and spec scenario `function main() = loop ( 1 );` → `fn() -> !`) requires
`TY_NEVER` here. -/
theorem c1_breakless_loop_gets_unit_not_never :
    (checkExpr chkCtx0 chkSt0 (.loop (.lit (.int 1 .int) sp0) 7 sp0)).map
        (fun r => r.1.ty) = .ok TY_UNIT ∧
    TY_UNIT ≠ TY_NEVER := by
  constructor
  · rw [checkExpr]
    rw [chk_lit_int]
    simp [TExpr.ty, TExpr.span, assign_unit_int, chkSt0, emitDiag]
    rfl
  · simp [TY_UNIT, TY_NEVER]


-- ## C4

theorem Ty.isInt_iff' {t : Ty} : t.isInt = true ↔ t = TY_INT := by
  cases t <;> simp [Ty.isInt, TY_INT]

theorem Ty.isI32_iff' {t : Ty} : t.isI32 = true ↔ t = TY_I32 := by
  cases t <;> simp [Ty.isI32, TY_I32]

theorem Ty.isBool_iff' {t : Ty} : t.isBool = true ↔ t = TY_BOOL := by
  cases t <;> simp [Ty.isBool, TY_BOOL]

/-- C4 (amended): for an arithmetic or logical binary operator (not a
comparison), `binaryOpTy` admits exactly these operand pairs: `Int`/`Int`
(result `Int`), `I32`/`I32` (result `I32`), and — for the logical operators
`&`, `|` only — `Bool`/`Bool` (result `Bool`); every other pair yields the
error type together with an `invalid types for binary operation` diagnostic.
In particular `&`/`|` are **not** restricted to booleans as the original
claim states. -/
theorem c4_binary_admitted_pairs (k : BinaryKind) (lt rt : Ty) (sp : Span)
    (st : ChkSt)
    (hk : k ∈ ARITH_TERM_KINDS ++ ARITH_FACTOR_KINDS ++ LOGICAL_KINDS) :
    (lt = TY_INT ∧ rt = TY_INT ∧ binaryOpTy k lt rt sp st = (TY_INT, st)) ∨
    (lt = TY_I32 ∧ rt = TY_I32 ∧ binaryOpTy k lt rt sp st = (TY_I32, st)) ∨
    (k ∈ LOGICAL_KINDS ∧ lt = TY_BOOL ∧ rt = TY_BOOL ∧
      binaryOpTy k lt rt sp st = (TY_BOOL, st)) ∨
    (∃ d : CompilerError,
      binaryOpTy k lt rt sp st = (.error, emitDiag st d)) := by
  have hcomp : k ∉ COMPARISON_KINDS := by
    simp [ARITH_TERM_KINDS, ARITH_FACTOR_KINDS, LOGICAL_KINDS] at hk
    rcases hk with h | h | h | h | h | h | h <;> subst h <;> decide
  by_cases h1 : (lt.isInt && rt.isInt) = true
  · rw [Bool.and_eq_true] at h1
    refine .inl ⟨Ty.isInt_iff'.mp h1.1, Ty.isInt_iff'.mp h1.2, ?_⟩
    simp [binaryOpTy, hcomp, h1.1, h1.2]
  · by_cases h2 : (lt.isI32 && rt.isI32) = true
    · rw [Bool.and_eq_true] at h2
      refine .inr (.inl ⟨Ty.isI32_iff'.mp h2.1, Ty.isI32_iff'.mp h2.2, ?_⟩)
      simp only [Bool.not_eq_true] at h1
      simp [binaryOpTy, hcomp, h1, h2.1, h2.2]
    · by_cases h3 : (LOGICAL_KINDS.contains k && (lt.isBool && rt.isBool)) = true
      · simp only [Bool.and_eq_true] at h3
        have hlog : k ∈ LOGICAL_KINDS := by simpa using h3.1
        refine .inr (.inr (.inl ⟨hlog, Ty.isBool_iff'.mp h3.2.1, Ty.isBool_iff'.mp h3.2.2, ?_⟩))
        simp only [Bool.not_eq_true] at h1 h2
        simp [binaryOpTy, hcomp, hlog, h1, h2, h3.2.1, h3.2.2]
      · refine .inr (.inr (.inr ⟨⟨"invalid types for binary operation: " ++ printTy lt ++
          " " ++ k.asStr ++ " " ++ printTy rt, sp⟩, ?_⟩))
        simp only [Bool.not_eq_true] at h1 h2
        simp only [Bool.and_eq_true, not_and, Bool.not_eq_true] at h3
        simp [binaryOpTy, hcomp, h1, h2, tyErrorSt]
        intro hl hb1 hb2
        rw [h3 (by simpa using hl) hb1] at hb2
        simp at hb2

theorem c4_binary_admitted_pairs_witness :
    (BinaryKind.and ∈ ARITH_TERM_KINDS ++ ARITH_FACTOR_KINDS ++ LOGICAL_KINDS) ∧
    ((TY_INT = TY_INT ∧ TY_INT = TY_INT ∧
        binaryOpTy .and TY_INT TY_INT sp0 chkSt0 = (TY_INT, chkSt0)) ∨
      (TY_INT = TY_I32 ∧ TY_INT = TY_I32 ∧
        binaryOpTy .and TY_INT TY_INT sp0 chkSt0 = (TY_I32, chkSt0)) ∨
      (BinaryKind.and ∈ LOGICAL_KINDS ∧ TY_INT = TY_BOOL ∧ TY_INT = TY_BOOL ∧
        binaryOpTy .and TY_INT TY_INT sp0 chkSt0 = (TY_BOOL, chkSt0)) ∨
      (∃ d : CompilerError,
        binaryOpTy .and TY_INT TY_INT sp0 chkSt0 = (.error, emitDiag chkSt0 d))) :=
  ⟨by simp [ARITH_TERM_KINDS, ARITH_FACTOR_KINDS, LOGICAL_KINDS],
   c4_binary_admitted_pairs .and TY_INT TY_INT sp0 chkSt0
     (by simp [ARITH_TERM_KINDS, ARITH_FACTOR_KINDS, LOGICAL_KINDS])⟩

/-- C4 counterexample: `1 & 2` on integers typechecks **successfully** with
result type `Int` and no diagnostic, contradicting the original claim that
`&` requires boolean operands. -/
theorem c4_and_on_ints_accepted :
    checkExpr chkCtx0 chkSt0
        (.binary .and (.lit (.int 1 .int) sp0) (.lit (.int 2 .int) sp0) sp0)
      = .ok (.binary .and (.lit (.int 1 .int) sp0 TY_INT)
               (.lit (.int 2 .int) sp0 TY_INT) sp0 TY_INT, chkSt0) ∧
    TY_INT ≠ Ty.error ∧ chkSt0.diags = [] := by
  refine ⟨?_, by simp [TY_INT], rfl⟩
  rw [checkExpr]
  simp [chk_lit_int, TExpr.withTy, TExpr.ty, resolveIfPossible, chaseVar,
    TY_INT, binaryOpTy, COMPARISON_KINDS, LOGICAL_KINDS, Ty.isInt]


-- ## C5

/-- C5: when `resolveIdent`'s local scan returns `some idx` for `name`, then
`idx` is the distance from the top of the `scopes` stack to the **topmost**
entry holding `name` (position `i` with `idx = length − 1 − i`, every higher
entry differs from `name`), and the checker's `typeOfLocal` applied to `idx`
reads back exactly position `i` of a same-length `localTys` stack — the
de-Bruijn-style index round-trips. -/
theorem c5_local_index_roundtrip (scopes : List String) (name : String) (idx : Nat)
    (h : resolveLocalIdx scopes name = some idx) :
    ∃ i : Nat, i < scopes.length ∧
      idx = scopes.length - 1 - i ∧
      scopes.length - 1 - idx = i ∧
      scopes[i]? = some name ∧
      (∀ j, i < j → j < scopes.length → scopes[j]? ≠ some name) ∧
      (∀ localTys : List Ty, localTys.length = scopes.length →
        typeOfLocal localTys idx = localTys[i]?) := by
  rw [resolveLocalIdx, List.findIdx?_eq_some_iff_findIdx_eq] at h
  obtain ⟨hlt, hfind⟩ := h
  subst hfind
  rw [List.length_reverse] at hlt
  set n := List.findIdx (fun c => decide (c = name)) scopes.reverse with hn
  refine ⟨scopes.length - 1 - n, by omega, by omega, rfl, ?_, ?_, ?_⟩
  · -- the matched entry holds the name
    have hrevlen : n < scopes.reverse.length := by simpa using hlt
    have hw : List.findIdx (fun c => decide (c = name)) scopes.reverse
        < scopes.reverse.length := by rw [← hn]; exact hrevlen
    have hp := List.findIdx_getElem (w := hw)
    have hrev : scopes.reverse[n]? = scopes[scopes.length - 1 - n]? :=
      List.getElem?_reverse (by simpa using hlt)
    rw [← hrev, List.getElem?_eq_getElem hrevlen]
    simp only [← hn] at hp
    simp only [decide_eq_true_eq] at hp
    rw [hp]
  · -- every higher entry differs: the scan returns the topmost match
    intro j hij hjlen hname
    have hk : scopes.length - 1 - j < n := by omega
    have hkb : scopes.length - 1 - j < scopes.reverse.length := by
      rw [List.length_reverse]; omega
    have hkrev : scopes.reverse[scopes.length - 1 - j]? = scopes[j]? := by
      rw [List.getElem?_reverse (by omega)]
      congr 1
      omega
    have hmem : scopes.reverse[scopes.length - 1 - j]? = some name := by
      rw [hkrev]; exact hname
    rw [List.getElem?_eq_getElem hkb] at hmem
    have hval : scopes.reverse[scopes.length - 1 - j] = name :=
      Option.some.inj hmem
    have hlt2 : scopes.length - 1 - j
        < List.findIdx (fun c => decide (c = name)) scopes.reverse := by
      rw [← hn]; exact hk
    have hfalse := List.not_of_lt_findIdx hlt2
    simp [hval] at hfalse
  · intro localTys hlen
    rw [typeOfLocal, hlen]

/-- C5 witness: on the stack `["a", "b", "a"]` the scan for `"a"` returns
index 0 (the topmost `"a"`, at position 2). -/
theorem c5_local_index_roundtrip_witness :
    ∃ i : Nat, i < (["a", "b", "a"] : List String).length ∧
      0 = (["a", "b", "a"] : List String).length - 1 - i ∧
      (["a", "b", "a"] : List String).length - 1 - 0 = i ∧
      (["a", "b", "a"] : List String)[i]? = some "a" ∧
      (∀ j, i < j → j < (["a", "b", "a"] : List String).length →
        (["a", "b", "a"] : List String)[j]? ≠ some "a") ∧
      (∀ localTys : List Ty, localTys.length = (["a", "b", "a"] : List String).length →
        typeOfLocal localTys 0 = localTys[i]?) :=
  c5_local_index_roundtrip ["a", "b", "a"] "a" 0 (by rfl)


-- ## C6

/-- Resolver context with a single item `x`. -/
def rctxI : RCtx := ⟨[("x", ⟨0, 5⟩)], [], fun _ => ⟨.error, ""⟩, fun _ _ => none⟩

/-- Resolver state inside one block with no locals yet. -/
def rstI : RState := ⟨[], [[]]⟩

/-- C6: resolving `let name = rhs` folds the right-hand side **first** (in the
scope state `s`, so `rhs` cannot see the new binding), and only then pushes
`name` onto the scope stack and appends the local record to the innermost
block's locals; concretely, in `let x = x` with an item `x` in scope, the
right-hand `x` resolves to the item, not to the new local. -/
theorem c6_let_pushes_after_rhs :
    (∀ (cx : RCtx) (s : RState) (name : String) (nspan : Span) (ty : Option BType)
        (rhs : BExpr) (sp : Span) (rhs' : RExpr) (s₁ : RState) (ty' : Option RType)
        (bl : List (List LocalInfo)),
      resolveExpr cx s rhs = .ok (rhs', s₁) →
      resolveOptType cx s₁ ty = .ok ty' →
      pushToLast s₁.blockLocals ⟨name, nspan⟩ = some bl →
      resolveExpr cx s (.elet name nspan ty rhs sp)
        = .ok (.elet name nspan ty' rhs' ⟨name, nspan⟩ sp,
               ⟨s₁.scopes ++ [name], bl⟩)) ∧
    resolveExpr rctxI rstI (.elet "x" sp0 none (.ident "x" sp0 sp0) sp0)
      = .ok (.elet "x" sp0 none (.ident "x" sp0 (.item ⟨0, 5⟩) sp0) ⟨"x", sp0⟩ sp0,
             ⟨["x"], [[⟨"x", sp0⟩]]⟩) := by
  constructor
  · intro cx s name nspan ty rhs sp rhs' s₁ ty' bl h1 h2 h3
    rw [resolveExpr]
    simp only [h1, h2, h3]
  · simp [resolveExpr, resolveIdentRes, resolveLocalIdx, resolveOptType,
      pushToLast, rctxI, rstI]

/-- C6 witness: the concrete `let x = x` resolution of the theorem's second
conjunct, derived by applying the general equation at its concrete input. -/
theorem c6_let_pushes_after_rhs_witness :
    resolveExpr rctxI rstI (.ident "x" sp0 sp0)
      = .ok (.ident "x" sp0 (.item ⟨0, 5⟩) sp0, rstI) ∧
    resolveExpr rctxI rstI (.elet "x" sp0 none (.ident "x" sp0 sp0) sp0)
      = .ok (.elet "x" sp0 none (.ident "x" sp0 (.item ⟨0, 5⟩) sp0) ⟨"x", sp0⟩ sp0,
             ⟨["x"], [[⟨"x", sp0⟩]]⟩) :=
  ⟨by simp [resolveExpr, resolveIdentRes, resolveLocalIdx, rctxI, rstI],
   c6_let_pushes_after_rhs.1 rctxI rstI "x" sp0 none (.ident "x" sp0 sp0) sp0
     (.ident "x" sp0 (.item ⟨0, 5⟩) sp0) rstI none [[⟨"x", sp0⟩]]
     (by simp [resolveExpr, resolveIdentRes, resolveLocalIdx, rctxI, rstI])
     (by rfl)
     (by rfl)⟩

-- ## C2

/-- C2 counterexample: an unresolvable identifier makes the resolver **throw**
a `CompilerError` (`cannot find c`) — the fold aborts with an exception and
returns no output at all, so no `error`-sentinel expression is produced,
contradicting the original claim's error-sentinel story for the resolver. -/
theorem c2_resolver_throws_on_unresolved :
    resolveExpr rctx0 rst0 (.ident "c" sp0 sp0)
      = .error (.compiler ⟨"cannot find c", sp0⟩) ∧
    ∀ out, resolveExpr rctx0 rst0 (.ident "c" sp0 sp0) ≠ .ok out := by
  have h : resolveExpr rctx0 rst0 (.ident "c" sp0 sp0)
      = .error (.compiler ⟨"cannot find c", sp0⟩) := by
    simp [resolveExpr, resolveIdentRes, resolveLocalIdx, rctx0, rst0, BUILTINS]
  exact ⟨h, fun out hout => by rw [h] at hout; exact absurd hout (by simp)⟩

def pairId : ItemId := ⟨0, 5⟩

/-- Checker context in which item `pairId` is the struct `Pair { x: Int }`. -/
def structCx : ChkCtx :=
  ⟨fun id => if id = pairId then .struct pairId [("x", TY_INT)] else .error,
   fun _ => ⟨.error, ""⟩⟩

/-- C2 (amended): name-resolution failures are **fatal**, not recovered: an
unresolvable identifier throws `cannot find <name>` (a thrown
`CompilerError`, modelled as the `Except.error` outcome), and a struct
literal naming an unknown field crashes the checker with a JS `TypeError`
(reading index 1 of `undefined`) rather than emitting an error-typed node. -/
theorem c2_amended_sentinels :
    (∀ (cx : RCtx) (s : RState) (name : String) (vspan sp : Span),
      resolveLocalIdx s.scopes name = none →
      cx.items.lookup name = none →
      cx.pkgs.lookup name = none →
      name ∉ BUILTINS →
      resolveExpr cx s (.ident name vspan sp)
        = .error (.compiler ⟨"cannot find " ++ name, vspan⟩)) ∧
    checkExpr structCx chkSt0
        (.structLit "Pair" sp0 (.item pairId) [("z", sp0, .lit (.int 1 .int) sp0)] sp0)
      = .error (.js "TypeError: cannot read properties of undefined (reading 1)") := by
  constructor
  · intro cx s name vspan sp h1 h2 h3 h4
    rw [resolveExpr]
    simp [resolveIdentRes, h1, h2, h3, h4]
  · rw [checkExpr]
    simp [checkFields, chk_lit_int, typeOfValue, structCx, pairId,
      structLitFieldLoop, emitDiag]

theorem c2_amended_sentinels_witness :
    resolveExpr rctx0 rst0 (.ident "d" sp0 sp0)
      = .error (.compiler ⟨"cannot find d", sp0⟩) :=
  c2_amended_sentinels.1 rctx0 rst0 "d" sp0 sp0 (by rfl) (by rfl) (by rfl)
    (by simp [BUILTINS])


-- ## C8

theorem range'_append1 (s m n : Nat) :
    List.range' s m ++ List.range' (s + m) n = List.range' s (m + n) := by
  have h := List.range'_append s m n 1
  simpa [Nat.add_comm n m] using h

mutual

def countLoops : BExpr → Nat
  | .elet _ _ _ rhs _ => countLoops rhs
  | .assign lhs rhs _ => countLoops lhs + countLoops rhs
  | .block exprs _ => countLoopsList exprs
  | .binary _ lhs rhs _ => countLoops lhs + countLoops rhs
  | .unary _ rhs _ => countLoops rhs
  | .call lhs args _ => countLoops lhs + countLoopsList args
  | .fieldAccess lhs _ _ _ _ => countLoops lhs
  | .ifE cond thenE elseE _ =>
    countLoops cond + countLoops thenE +
      (match elseE with
       | none => 0
       | some e => countLoops e)
  | .loop body _ _ => countLoops body + 1
  | .structLit _ _ fields _ => countLoopsFields fields
  | .tupleLit fields _ => countLoopsList fields
  | _ => 0

def countLoopsList : List BExpr → Nat
  | [] => 0
  | e :: rest => countLoops e + countLoopsList rest

def countLoopsFields : List (String × Span × BExpr) → Nat
  | [] => 0
  | (_, _, e) :: rest => countLoops e + countLoopsFields rest

end

mutual

def countItems : List Item → Nat
  | [] => 0
  | i :: rest => countItemsOf i + countItems rest

def countItemsOf : Item → Nat
  | .mod _ contents _ _ => countItems contents + 1
  | _ => 1

end

theorem perm_append_range' {A B : List Nat} {c m n : Nat}
    (hA : A.Perm (List.range' c m)) (hB : B.Perm (List.range' (c + m) n)) :
    (A ++ B).Perm (List.range' c (m + n)) := by
  rw [← range'_append1]
  exact hA.append hB

theorem perm_append3_range' {A B C : List Nat} {c m n k : Nat}
    (hA : A.Perm (List.range' c m)) (hB : B.Perm (List.range' (c + m) n))
    (hC : C.Perm (List.range' (c + m + n) k)) :
    (A ++ (B ++ C)).Perm (List.range' c (m + n + k)) := by
  have h1 : (B ++ C).Perm (List.range' (c + m) (n + k)) := perm_append_range' hB hC
  have h2 := perm_append_range' hA h1
  rw [← Nat.add_assoc] at h2
  exact h2

theorem perm_loop_range' {A : List Nat} {c m : Nat}
    (hA : A.Perm (List.range' c m)) :
    (A ++ [c + m]).Perm (List.range' c (m + 1)) := by
  rw [List.range'_concat]
  simpa using hA.append (by simp)

theorem buildExpr_counts :
    (∀ (c : Nat) (e : BExpr), (buildExpr c e).2 = c + countLoops e ∧
       List.Perm (collectLoopIds (buildExpr c e).1) (List.range' c (countLoops e))) ∧
    (∀ (c : Nat) (fs : List (String × Span × BExpr)),
       (buildFieldExprs c fs).2 = c + countLoopsFields fs ∧
       List.Perm (collectLoopIdsFields (buildFieldExprs c fs).1)
         (List.range' c (countLoopsFields fs))) ∧
    (∀ (c : Nat) (es : List BExpr), (buildExprs c es).2 = c + countLoopsList es ∧
       List.Perm (collectLoopIdsList (buildExprs c es).1)
         (List.range' c (countLoopsList es))) := by
  apply buildExpr.mutual_induct <;> intros
  all_goals try casesm* _ ∧ _
  all_goals simp_all [buildExpr, buildExprs, buildFieldExprs, collectLoopIds,
    collectLoopIdsList, collectLoopIdsFields, countLoops, countLoopsList,
    countLoopsFields]
  all_goals try refine ⟨by omega, ?_⟩
  all_goals solve_by_elim [perm_append_range', perm_append3_range', perm_loop_range']


mutual

def countItemLoops : List Item → Nat
  | [] => 0
  | i :: rest => countItemLoopsOf i + countItemLoops rest

def countItemLoopsOf : Item → Nat
  | .function _ body _ _ => countLoops body
  | .mod _ contents _ _ => countItemLoops contents
  | .globalItem _ _ init _ _ => countLoops init
  | _ => 0

end

theorem buildExpr_snd (c : Nat) (e : BExpr) :
    (buildExpr c e).2 = c + countLoops e := (buildExpr_counts.1 c e).1

theorem buildExpr_perm (c : Nat) (e : BExpr) :
    List.Perm (collectLoopIds (buildExpr c e).1) (List.range' c (countLoops e)) :=
  (buildExpr_counts.1 c e).2

theorem buildItems_counts (pkgId : Nat) :
    (∀ (ic lc : Nat) (item : Item),
       (buildItem pkgId ic lc item).2.1 = ic + countItemsOf item ∧
       (buildItem pkgId ic lc item).2.2 = lc + countItemLoopsOf item ∧
       collectItemIdsOf (buildItem pkgId ic lc item).1
         = (List.range' ic (countItemsOf item)).map (ItemId.mk pkgId) ∧
       List.Perm (collectItemLoopIdsOf (buildItem pkgId ic lc item).1)
         (List.range' lc (countItemLoopsOf item))) ∧
    (∀ (ic lc : Nat) (items : List Item),
       (buildItems pkgId ic lc items).2.1 = ic + countItems items ∧
       (buildItems pkgId ic lc items).2.2 = lc + countItemLoops items ∧
       collectItemIds (buildItems pkgId ic lc items).1
         = (List.range' ic (countItems items)).map (ItemId.mk pkgId) ∧
       List.Perm (collectItemLoopIds (buildItems pkgId ic lc items).1)
         (List.range' lc (countItemLoops items))) := by
  apply buildItem.mutual_induct <;> intros
  all_goals try simp only [Prod.ext_iff] at *
  all_goals try casesm* _ ∧ _
  all_goals try simp_all [buildItem, buildItems, Item.id, collectItemIds,
    collectItemIdsOf, collectItemLoopIds, collectItemLoopIdsOf, countItems,
    countItemsOf, countItemLoops, countItemLoopsOf, buildExpr_snd,
    buildExpr_perm, List.range'_succ, range'_append1]
  all_goals try subst_vars
  all_goals try simp_all [← List.map_append, range'_append1, buildExpr_perm]
  all_goals try omega
  all_goals try solve_by_elim [buildExpr_perm, perm_append_range',
    perm_append3_range', perm_loop_range']
  all_goals
    rename_i h1 h2 h3 h4 h5 h6 h7 h8
  all_goals
    rw [h1, h2] at h5 h6 h7 h8
  all_goals
    refine ⟨by rw [h5]; omega, by rw [h6]; omega, ?_, ?_⟩
  · rw [h7, ← List.map_append, range'_append1]
  · exact perm_append_range' h4 h8


theorem validate_characterization :
    (∀ (seen : List ItemId) (g : List CompilerError) (item : Item),
       ((∃ r, validateItem seen g item = .ok r) ↔
         ((collectItemIdsOf item).Nodup ∧ ∀ id ∈ collectItemIdsOf item, id ∉ seen)) ∧
       (∀ seen' g', validateItem seen g item = .ok (seen', g') →
         seen' = seen ++ collectItemIdsOf item)) ∧
    (∀ (seen : List ItemId) (g : List CompilerError) (items : List Item),
       ((∃ r, validateItemList seen g items = .ok r) ↔
         ((collectItemIds items).Nodup ∧ ∀ id ∈ collectItemIds items, id ∉ seen)) ∧
       (∀ seen' g', validateItemList seen g items = .ok (seen', g') →
         seen' = seen ++ collectItemIds items)) := by
  apply validateItem.mutual_induct <;> intros
  all_goals try simp_all [validateItem, validateItemList, collectItemIds,
    collectItemIdsOf, Item.id]
  case case4 =>
    rename_i h hih
    refine ⟨?_, hih.2⟩
    constructor
    · rintro ⟨hn, hall⟩
      exact ⟨⟨fun hmem => (hall _ hmem).2 rfl, hn⟩, fun a ha => (hall a ha).1⟩
    · rintro ⟨⟨hid, hn⟩, hall⟩
      exact ⟨hn, fun x hx => ⟨hall x hx, fun he => hid (he ▸ hx)⟩⟩
  case case18 =>
    rename_i e hx hih
    intro hnd
    obtain ⟨x, hx1, hx2⟩ := hih (List.nodup_append.mp hnd).1
    exact ⟨x, Or.inl hx1, hx2⟩
  case case19 =>
    rename_i hx ih2 ih1
    refine ⟨?_, ih1.2⟩
    obtain ⟨⟨hnOf, hOfSeen⟩, _⟩ := ih2
    constructor
    · rintro ⟨hn, hall⟩
      refine ⟨List.nodup_append.mpr ⟨hnOf, hn, fun a ha hb => (hall a hb).2 ha⟩, ?_⟩
      intro id hid
      rcases hid with hid | hid
      · exact hOfSeen id hid
      · exact (hall id hid).1
    · rintro ⟨hnd, hall⟩
      obtain ⟨-, hnr, hdisj⟩ := List.nodup_append.mp hnd
      exact ⟨hnr, fun id hid => ⟨hall id (Or.inr hid), fun hin => hdisj hin hid⟩⟩


/-- C8: the builder numbers the items of a package with consecutive `itemIdx`
values starting at 1 in traversal order (so they are pairwise distinct and the
reserved root index 0 is never assigned), numbers loops with distinct ids
drawn from a counter starting at 0, and the post-build validator accepts a
package exactly when the item identifiers it traverses are pairwise
distinct. -/
theorem c8_builder_ids_validator (pkgId : Nat) (rootItems : List Item) :
    collectItemIds (buildPkgItems pkgId rootItems).1
      = (List.range' 1 (countItems rootItems)).map (ItemId.mk pkgId) ∧
    (collectItemIds (buildPkgItems pkgId rootItems).1).Nodup ∧
    ItemId.mk pkgId 0 ∉ collectItemIds (buildPkgItems pkgId rootItems).1 ∧
    (collectItemLoopIds (buildPkgItems pkgId rootItems).1).Perm
      (List.range' 0 (countItemLoops rootItems)) ∧
    (collectItemLoopIds (buildPkgItems pkgId rootItems).1).Nodup ∧
    (∀ items : List Item,
      (∃ r, validateAst items = .ok r) ↔ (collectItemIds items).Nodup) := by
  have hb := (buildItems_counts pkgId).2 1 0 rootItems
  have hids := hb.2.2.1
  have hperm := hb.2.2.2
  have hinj : Function.Injective (ItemId.mk pkgId) := by
    intro a b hab
    cases hab
    rfl
  refine ⟨by simpa [buildPkgItems] using hids, ?_, ?_,
    by simpa [buildPkgItems] using hperm, ?_, ?_⟩
  · rw [show collectItemIds (buildPkgItems pkgId rootItems).1
        = (List.range' 1 (countItems rootItems)).map (ItemId.mk pkgId)
      from by simpa [buildPkgItems] using hids]
    exact (List.nodup_range' 1 (countItems rootItems)).map hinj
  · rw [show collectItemIds (buildPkgItems pkgId rootItems).1
        = (List.range' 1 (countItems rootItems)).map (ItemId.mk pkgId)
      from by simpa [buildPkgItems] using hids]
    intro hmem
    obtain ⟨a, ha, hae⟩ := List.mem_map.mp hmem
    have : a = 0 := (ItemId.mk.injEq pkgId a pkgId 0).mp hae |>.2
    subst this
    have := List.mem_range'_1.mp ha
    omega
  · have h := by simpa [buildPkgItems] using hperm
    exact h.nodup_iff.mpr (List.nodup_range' 0 (countItemLoops rootItems))
  · intro items
    have h := (validate_characterization.2 [] [] items).1
    simpa [validateAst] using h


-- ## C7: module-path collapse invariant of the resolver.

/-- `module.kind === "mod" || module.kind === "extern"` on the item behind a
resolution; `false` for non-item resolutions. -/
def isModRes (cx : RCtx) : Resolution → Bool
  | .item id => decide ((cx.findItem id).kind = ItemKindTag.mod ∨
      (cx.findItem id).kind = ItemKindTag.ext)
  | _ => false

/-- The head condition of the collapse invariant: a `fieldAccess` left-hand
side that is an `ident` or `path` must not resolve to a `mod`/`extern`
item. -/
def faHeadOk (cx : RCtx) : RExpr → Bool
  | .ident _ _ res _ => !isModRes cx res
  | .path _ res _ _ => !isModRes cx res
  | _ => true

-- `noModFA e` says no `fieldAccess` node anywhere in `e` has a module-kind
-- resolution on its left-hand side.

mutual

def noModFA (cx : RCtx) : RExpr → Bool
  | .empty _ => true
  | .elet _ _ _ rhs _ _ => noModFA cx rhs
  | .assign l r _ => noModFA cx l && noModFA cx r
  | .block es _ _ => noModFAList cx es
  | .lit _ _ => true
  | .ident _ _ _ _ => true
  | .path _ _ _ _ => true
  | .binary _ l r _ => noModFA cx l && noModFA cx r
  | .unary _ r _ => noModFA cx r
  | .call l args _ => noModFA cx l && noModFAList cx args
  | .fieldAccess lhs _ _ _ _ => faHeadOk cx lhs && noModFA cx lhs
  | .ifE c t e _ => noModFA cx c && noModFA cx t && noModFAOpt cx e
  | .loop b _ _ => noModFA cx b
  | .brk _ => true
  | .structLit _ _ _ fs _ => noModFAFields cx fs
  | .tupleLit fs _ => noModFAList cx fs
  | .asm _ => true
  | .error _ _ => true

def noModFAOpt (cx : RCtx) : Option RExpr → Bool
  | none => true
  | some e => noModFA cx e

def noModFAList (cx : RCtx) : List RExpr → Bool
  | [] => true
  | e :: rest => noModFA cx e && noModFAList cx rest

def noModFAFields (cx : RCtx) : List (String × Span × RExpr) → Bool
  | [] => true
  | (_, _, e) :: rest => noModFA cx e && noModFAFields cx rest

end

/-- Built expressions that are an `ident`, a `path`, or a field-access spine
over one: the shapes the collapse guard can fire on.  Folding such a spine
never moves the resolver's scope state. -/
def spineCollapsible : BExpr → Bool
  | .ident _ _ _ => true
  | .path _ _ _ _ => true
  | .fieldAccess l _ _ _ _ => spineCollapsible l
  | _ => false

-- When the collapse guard fires, the folded lhs is an `ident` or `path`, so
-- (via the ident/path characterizations of the fold) the original lhs is a
-- collapsible spine and its fold was state-neutral.

theorem guard_some_spine (cx : RCtx) (s s₁ : RState) (lhs : BExpr) (e : RExpr)
    (res : Resolution) (segs : List String)
    (hg : fieldAccessGuard cx s₁ e = .ok (some (res, segs)))
    (ihB : ∀ n vs r sp, e = .ident n vs r sp →
      lhs = .ident n vs sp ∧ s₁ = s ∧ resolveIdentRes cx s n vs = .ok r)
    (ihC : ∀ sg r vs sp, e = .path sg r vs sp → spineCollapsible lhs = true)
    (ihD : spineCollapsible lhs = true → s₁ = s) :
    spineCollapsible lhs = true ∧ s₁ = s := by
  cases e <;> simp [fieldAccessGuard] at hg
  case ident n vs r sp =>
    obtain ⟨h1, h2, _⟩ := ihB n vs r sp rfl
    subst h1
    exact ⟨rfl, h2⟩
  case path sg r vs sp =>
    have hc := ihC sg r vs sp rfl
    exact ⟨hc, ihD hc⟩

/-- When the guard fires and the resolution it found is not a module item,
the folded lhs satisfies the head condition. -/
theorem guard_some_head (cx : RCtx) (s s₁ : RState) (lhs : BExpr) (e : RExpr)
    (res : Resolution) (segs : List String)
    (hg : fieldAccessGuard cx s₁ e = .ok (some (res, segs)))
    (ihB : ∀ n vs r sp, e = .ident n vs r sp →
      lhs = .ident n vs sp ∧ s₁ = s ∧ resolveIdentRes cx s n vs = .ok r)
    (hres : isModRes cx res = false) :
    faHeadOk cx e = true := by
  cases e <;> try simp [fieldAccessGuard] at hg
  case ident n vs r sp =>
    obtain ⟨_, hs, hr⟩ := ihB n vs r sp rfl
    subst hs
    rw [hr] at hg
    simp at hg
    simp [faHeadOk, hg.1, hres]
  case path sg r vs sp =>
    simp [faHeadOk, hg.1, hres]

set_option maxHeartbeats 12000000 in
theorem resolveExpr_noModFA (cx : RCtx) :
    (∀ s e out s', resolveExpr cx s e = .ok (out, s') →
      noModFA cx out = true ∧
      (∀ n vs r sp, out = .ident n vs r sp →
        e = .ident n vs sp ∧ s' = s ∧ resolveIdentRes cx s n vs = .ok r) ∧
      (∀ segs r vs sp, out = .path segs r vs sp → spineCollapsible e = true) ∧
      (spineCollapsible e = true → s' = s)) ∧
    (∀ s fs out s', resolveFields cx s fs = .ok (out, s') →
      noModFAFields cx out = true) ∧
    (∀ s oe out s', resolveOptExpr cx s oe = .ok (out, s') →
      noModFAOpt cx out = true) ∧
    (∀ s es out s', resolveExprs cx s es = .ok (out, s') →
      noModFAList cx out = true) := by
  apply resolveExpr.mutual_induct cx
  case case26 =>
    intro s lhs fval fspan fieldIdx sp l1 s1 h1 hg l2 s2 h2 ih1 ih2
    intro out sf hok
    have C1 := ih1 l1 s1 h1
    have C2 := ih2 l2 s2 h2
    rw [resolveExpr, h1] at hok
    simp only [hg, h2, Except.ok.injEq, Prod.mk.injEq] at hok
    obtain ⟨ho, hsf⟩ := hok
    subst ho
    subst hsf
    refine ⟨?_, fun n vs r sp2 hco => RExpr.noConfusion hco,
      fun sg r vs sp2 hco => RExpr.noConfusion hco, ?_⟩
    · rw [noModFA, Bool.and_eq_true]
      refine ⟨?_, C2.1⟩
      cases hl2 : l2
      case ident n vs r sp2 =>
        obtain ⟨hlhs, hs2, hr⟩ := C2.2.1 n vs r sp2 hl2
        subst hlhs
        rw [resolveExpr] at h1
        rcases hq : resolveIdentRes cx s n vs with e | r0 <;>
          simp only [hq, Except.ok.injEq, Prod.mk.injEq] at h1
        · exact Except.noConfusion h1
        · obtain ⟨hl1, hs1⟩ := h1
          subst hl1
          subst hs1
          simp only [fieldAccessGuard, hq, Except.ok.injEq] at hg
          exact Option.noConfusion hg
      case path sg r vs sp2 =>
        have hc := C2.2.2.1 sg r vs sp2 hl2
        have hs1 := C1.2.2.2 hc
        subst hs1
        rw [h1] at h2
        simp only [Except.ok.injEq, Prod.mk.injEq] at h2
        obtain ⟨hl12, hss⟩ := h2
        subst hl12
        rw [hl2] at hg
        simp only [fieldAccessGuard, Except.ok.injEq] at hg
        exact Option.noConfusion hg
      all_goals rfl
    · intro hco
      rw [spineCollapsible] at hco
      have hs1 := C1.2.2.2 hco
      subst hs1
      rw [h1] at h2
      simp only [Except.ok.injEq, Prod.mk.injEq] at h2
      exact h2.2.symm
  case case29 =>
    intro s lhs fspan fieldIdx sp l1 s1 h1 segments id module hmod fname target hlook hg ih1
    intro out sf hok
    have hmod2 : (cx.findItem id).kind = ItemKindTag.mod ∨
        (cx.findItem id).kind = ItemKindTag.ext := hmod
    have C1 := ih1 l1 s1 h1
    obtain ⟨hcoll, hs1⟩ := guard_some_spine cx s s1 lhs l1 (.item id) segments hg
      C1.2.1 C1.2.2.1 C1.2.2.2
    subst hs1
    rw [resolveExpr, h1] at hok
    simp only [hg, if_pos hmod2, hlook, Except.ok.injEq, Prod.mk.injEq] at hok
    obtain ⟨ho, hsf⟩ := hok
    subst ho
    subst hsf
    exact ⟨by rw [noModFA],
      fun n vs r sp2 hco => RExpr.noConfusion hco,
      fun sg r vs sp2 hco => by rw [spineCollapsible]; exact hcoll,
      fun _ => rfl⟩
  case case31 =>
    intro s lhs fval fspan fieldIdx sp l1 s1 h1 segments id module hmod l2 s2 h2 hg ih1 ih2
    intro out sf hok
    have hmod2 : ¬((cx.findItem id).kind = ItemKindTag.mod ∨
        (cx.findItem id).kind = ItemKindTag.ext) := hmod
    have C1 := ih1 l1 s1 h1
    have hres : isModRes cx (Resolution.item id) = false := by
      rw [isModRes]
      exact decide_eq_false_iff_not.mpr hmod2
    have hhead := guard_some_head cx s s1 lhs l1 (Resolution.item id) segments hg
      C1.2.1 hres
    obtain ⟨hcoll, hs1⟩ := guard_some_spine cx s s1 lhs l1 (.item id) segments hg
      C1.2.1 C1.2.2.1 C1.2.2.2
    subst hs1
    rw [resolveExpr, h1] at hok
    simp only [hg, if_neg hmod2, h1, Except.ok.injEq, Prod.mk.injEq] at hok
    obtain ⟨ho, hsf⟩ := hok
    subst ho
    subst hsf
    exact ⟨by rw [noModFA, Bool.and_eq_true]; exact ⟨hhead, C1.1⟩,
      fun n vs r sp2 hco => RExpr.noConfusion hco,
      fun sg r vs sp2 hco => RExpr.noConfusion hco,
      fun _ => rfl⟩
  case case33 =>
    intro s lhs fval fspan fieldIdx sp l1 s1 h1 res segments hg l2 s2 h2 hnot ih1 ih2
    intro out sf hok
    have C1 := ih1 l1 s1 h1
    have hres : isModRes cx res = false := by
      cases res
      case item id => exact absurd rfl (hnot id)
      all_goals rfl
    have hhead := guard_some_head cx s s1 lhs l1 res segments hg C1.2.1 hres
    obtain ⟨hcoll, hs1⟩ := guard_some_spine cx s s1 lhs l1 res segments hg
      C1.2.1 C1.2.2.1 C1.2.2.2
    subst hs1
    rw [resolveExpr, h1] at hok
    simp only [hg] at hok
    cases res
    case item id => exact absurd rfl (hnot id)
    case local_ i =>
      simp only [h1, Except.ok.injEq, Prod.mk.injEq] at hok
      obtain ⟨ho, hsf⟩ := hok
      subst ho
      subst hsf
      exact ⟨by rw [noModFA, Bool.and_eq_true]; exact ⟨hhead, C1.1⟩,
        fun n vs r sp2 hco => RExpr.noConfusion hco,
        fun sg r vs sp2 hco => RExpr.noConfusion hco,
        fun _ => rfl⟩
    case builtin bn =>
      simp only [h1, Except.ok.injEq, Prod.mk.injEq] at hok
      obtain ⟨ho, hsf⟩ := hok
      subst ho
      subst hsf
      exact ⟨by rw [noModFA, Bool.and_eq_true]; exact ⟨hhead, C1.1⟩,
        fun n vs r sp2 hco => RExpr.noConfusion hco,
        fun sg r vs sp2 hco => RExpr.noConfusion hco,
        fun _ => rfl⟩
    case tyParam i nm =>
      simp only [h1, Except.ok.injEq, Prod.mk.injEq] at hok
      obtain ⟨ho, hsf⟩ := hok
      subst ho
      subst hsf
      exact ⟨by rw [noModFA, Bool.and_eq_true]; exact ⟨hhead, C1.1⟩,
        fun n vs r sp2 hco => RExpr.noConfusion hco,
        fun sg r vs sp2 hco => RExpr.noConfusion hco,
        fun _ => rfl⟩
    case error er =>
      simp only [h1, Except.ok.injEq, Prod.mk.injEq] at hok
      obtain ⟨ho, hsf⟩ := hok
      subst ho
      subst hsf
      exact ⟨by rw [noModFA, Bool.and_eq_true]; exact ⟨hhead, C1.1⟩,
        fun n vs r sp2 hco => RExpr.noConfusion hco,
        fun sg r vs sp2 hco => RExpr.noConfusion hco,
        fun _ => rfl⟩
  all_goals intros
  all_goals try simp_all only [resolveExpr, resolveOptExpr, resolveExprs,
    resolveFields, Except.ok.injEq, Except.error.injEq, Prod.mk.injEq,
    reduceCtorEq]
  all_goals try casesm* _ ∧ _
  all_goals try subst_vars
  all_goals try simp only [noModFA, noModFAOpt, noModFAList, noModFAFields,
    faHeadOk, spineCollapsible, Bool.and_eq_true]
  all_goals try (repeat' apply And.intro)
  all_goals try (intros; subst_vars; first | assumption | rfl)
  all_goals try simp_all [noModFA, noModFAOpt, noModFAList, noModFAFields,
    faHeadOk, spineCollapsible]
  all_goals intros
  all_goals subst_vars
  all_goals assumption

/-- C7: after resolution, no `fieldAccess` expression anywhere in the output
has a left-hand side that is an `ident` or `path` resolving to an item of
kind `mod` or `extern`: every such access over a module is rewritten by the
resolver into a `path` expression pointing at the looked-up member, so the
collapse invariant `noModFA` holds of every successfully resolved
expression. -/
theorem c7_module_path_collapse (cx : RCtx) (s : RState) (e : BExpr)
    (out : RExpr) (s' : RState)
    (h : resolveExpr cx s e = .ok (out, s')) :
    noModFA cx out = true :=
  ((resolveExpr_noModFA cx).1 s e out s' h).1

/-- Resolver context with a module `m` whose member `f` is item `fId7`. -/
def mId7 : ItemId := ⟨0, 1⟩

def fId7 : ItemId := ⟨0, 2⟩

def rctx7 : RCtx :=
  ⟨[("m", mId7)], [],
   fun id => if id = mId7 then ⟨.mod, "m"⟩ else ⟨.function, "f"⟩,
   fun id fname => if id = mId7 ∧ fname = "f" then some fId7 else none⟩

/-- C7 witness: resolving `m.f` where `m` is a module collapses to a `path`
resolving to the member item, and the collapse invariant holds of it. -/
theorem c7_module_path_collapse_witness :
    noModFA rctx7 (.path ["m", "f"] (.item fId7) (Span.merge sp0 sp0)
      (Span.merge sp0 sp0)) = true :=
  c7_module_path_collapse rctx7 rst0
    (.fieldAccess (.ident "m" sp0 sp0) (.str "f") sp0 none sp0)
    (.path ["m", "f"] (.item fId7) (Span.merge sp0 sp0) (Span.merge sp0 sp0))
    rst0
    (by simp [resolveExpr, resolveIdentRes, resolveLocalIdx, fieldAccessGuard,
      RExpr.span, rctx7, rst0, mId7, fId7])

end NewCool
